import Mathlib

/-!
Verification of the qmm-rs quest-file decoder (crate `qmm-syntax`) against its
specification.  The development shallowly embeds the Rust sources:

* `src/qmm-syntax/src/text/formatted_text.rs` — the markup scanner
  (`FormattedText::parse` and its `try_parse_*` helpers);
* `src/qmm-syntax/src/text/formula.rs` — the formula scanner
  (`Formula::parse` and its `try_parse_*` helpers);
* `src/qmm-syntax/src/qmm/*.rs` — the byte-level record decoders and the
  document decoder (`QmmParser::parse`).

Modelling conventions:

* The Rust scanners walk the UTF-8 byte array of the input string
  (`text.as_bytes()`).  We model the input as a `List Char`.  Every byte the
  scanners dispatch on or compare against is ASCII, and a non-ASCII byte of a
  multi-byte character can never equal any of these ASCII bytes, so it falls
  into the "ordinary literal" branches exactly as a whole char does in this
  model; positions of recognised constructs are always char-aligned in both
  views, making the two views isomorphic element-by-element.
* Byte buffers are `List Nat` (each entry a byte value).  Machine integers
  are modelled as `Nat`/`Int` with explicit wrap-arounds where the Rust code
  converts (`as u32`, `as usize`, `as i8`).
* `f64` values are kept as their little-endian byte pattern (the decoder
  never computes with them), and a `Double` formula token keeps the literal
  characters it was parsed from.
* The main loop of `FormattedText::parse` does not advance the scan position
  on a `'\r'` that is not followed by `'\n'` (the Rust `continue` skips the
  `pos += 1` at the bottom of the loop), so that function is not total; it is
  embedded with an explicit fuel parameter, `none` meaning that the Rust loop
  is still running (runs forever) after the given number of iterations.
* A few branches of the formula scanner index `buffer[pos]` at a position
  that can be one past the end of the buffer, which panics in Rust; these
  branches are embedded as the explicit outcome `crashed`.
-/

/-- Contiguous sub-list `l[a..b)` (clamped at the ends), the model of a Rust
subSlice `&buffer[a..b]` of a byte or char buffer. -/
def subSlice (l : List α) (a b : Nat) : List α := (l.drop a).take (b - a)

/-- Characters of a string literal; used to write char-list constants. -/
def cs (s : String) : List Char := s.toList

/-- Model of `str::parse::<usize>` restricted to the digit-only strings the
markup scanner feeds it: all-digit, non-empty, value below `2^64`. -/
def parseUsizeDigits (s : List Char) : Option Nat :=
  if s ≠ [] ∧ s.all Char.isDigit then
    let v := s.foldl (fun acc c => acc * 10 + (c.toNat - 48)) 0
    if v < 2 ^ 64 then some v else none
  else none

/-- Rust `i32value as usize` (sign extension to 64 bits). -/
def usizeOfI32 (v : Int) : Nat := (v % (2 : Int) ^ 64).toNat

/-- Rust `i32value as u32` (two's-complement reinterpretation). -/
def u32OfI32 (v : Int) : Nat := (v % (2 : Int) ^ 32).toNat

/-! ## Markup scanner (`formatted_text.rs`) -/

/-- `TextElementKind` from `formatted_text.rs` (the `Variable` constructor is
renamed `var` because `variable` is a Lean keyword). -/
inductive TextElementKind where
  | text
  | var (name : List Char)
  | formula (text : List Char)
  | currentParameter
  | newLine
  | selection (text : List Char)
  | parameter (index : Nat)
deriving DecidableEq, Repr

/-- `TextElement` from `formatted_text.rs`. -/
structure TextElement where
  kind : TextElementKind
  value : List Char
deriving DecidableEq, Repr

/-- Concatenation of the `value` fields of a list of markup elements; the
model of `impl Display for FormattedText`, which writes each element's
`value` in order. -/
def concatValues (els : List TextElement) : List Char :=
  (els.map TextElement.value).flatten

/-- The `VARIABLES` catalogue from `formatted_text.rs`. -/
def VARIABLES : List (List Char) :=
  [cs "<ToStar>", cs "<ToPlanet>", cs "<FromStar>", cs "<FromPlanet>",
   cs "<Ranger>", cs "<Date>", cs "<Day>", cs "<Money>"]

/-- `CLR_BEGIN_TAG` from `formatted_text.rs`. -/
def CLR_BEGIN_TAG : List Char := cs "<clr>"

/-- `CLR_END_TAG` from `formatted_text.rs`. -/
def CLR_END_TAG : List Char := cs "<clrEnd>"

namespace FormattedText

/-- Digit-collecting loop of `FormattedText::try_parse_parameter`.  The
first argument is an iteration budget: the loop advances its position every
iteration and stops at the end of the buffer, so the budget
`buffer.length + 1` passed by the wrapper below can never be exhausted (the
budget only makes the recursion structural). -/
def tryParseParameterGo (buffer : List Char) (start numberStart : Nat) :
    Nat → Nat → Option TextElement
  | 0, _ => none
  | fuel + 1, pos =>
    if h : pos < buffer.length then
      let ch := buffer[pos]
      if ch = ']' then
        if pos = numberStart then none
        else
          match parseUsizeDigits (subSlice buffer numberStart pos) with
          | some index => some ⟨.parameter index, subSlice buffer start (pos + 1)⟩
          | none => none
      else if ch.isDigit then tryParseParameterGo buffer start numberStart fuel (pos + 1)
      else none
    else none

/-- `FormattedText::try_parse_parameter`. -/
def tryParseParameter (buffer : List Char) (start : Nat) : Option TextElement :=
  if buffer[start + 1]? = some 'p' then
    tryParseParameterGo buffer start (start + 2) (buffer.length + 1) (start + 2)
  else none

/-- Scanning loop of `FormattedText::try_parse_formula` (iteration budget as
in `tryParseParameterGo`). -/
def tryParseFormulaGo (buffer : List Char) (start : Nat) : Nat → Nat → Option TextElement
  | 0, _ => none
  | fuel + 1, pos =>
    if h : pos < buffer.length then
      if buffer[pos] = '}' then
        some ⟨.formula (subSlice buffer (start + 1) pos), subSlice buffer start (pos + 1)⟩
      else tryParseFormulaGo buffer start fuel (pos + 1)
    else none

/-- `FormattedText::try_parse_formula` (scans from the `{` itself). -/
def tryParseFormula (buffer : List Char) (start : Nat) : Option TextElement :=
  tryParseFormulaGo buffer start (buffer.length + 1) start

/-- `FormattedText::try_parse_current_parameter` (only invoked with `start` in
bounds, where `buffer[start]` cannot panic). -/
def tryParseCurrentParameter (buffer : List Char) (start : Nat) : Option TextElement :=
  match buffer[start]?, buffer[start + 1]? with
  | some '<', some '>' => some ⟨.currentParameter, cs "<>"⟩
  | _, _ => none

/-- `FormattedText::try_parse_text_selection_begin_tag_end`. -/
def tryParseTextSelectionBeginTagEnd (buffer : List Char) (start : Nat) : Option Nat :=
  if start + 5 ≤ buffer.length ∧ subSlice buffer start (start + 5) = CLR_BEGIN_TAG then
    some (start + 4)
  else none

/-- `FormattedText::try_parse_text_selection_end_tag_end`. -/
def tryParseTextSelectionEndTagEnd (buffer : List Char) (start : Nat) : Option Nat :=
  if start + 8 ≤ buffer.length ∧ subSlice buffer start (start + 8) = CLR_END_TAG then
    some (start + 7)
  else none

/-- Scanning loop of `FormattedText::try_parse_text_selection` (iteration
budget as in `tryParseParameterGo`). -/
def tryParseTextSelectionGo (buffer : List Char) (start textStart : Nat) :
    Nat → Nat → Option TextElement
  | 0, _ => none
  | fuel + 1, pos =>
    if h : pos < buffer.length then
      if buffer[pos] = '<' then
        match tryParseTextSelectionEndTagEnd buffer pos with
        | none => none
        | some endTagEnd =>
          let text := if textStart = pos then [] else subSlice buffer textStart pos
          some ⟨.selection text, subSlice buffer start (endTagEnd + 1)⟩
      else tryParseTextSelectionGo buffer start textStart fuel (pos + 1)
    else none

/-- `FormattedText::try_parse_text_selection`. -/
def tryParseTextSelection (buffer : List Char) (start : Nat) : Option TextElement :=
  match tryParseTextSelectionBeginTagEnd buffer start with
  | none => none
  | some beginTagEnd =>
    tryParseTextSelectionGo buffer start (beginTagEnd + 1) (buffer.length + 1) (beginTagEnd + 1)

/-- Scanning loop of `FormattedText::try_parse_variable` (iteration budget
as in `tryParseParameterGo`). -/
def tryParseVariableGo (buffer : List Char) (start : Nat) :
    Nat → Nat → Nat → Option TextElement
  | 0, _, _ => none
  | fuel + 1, pos, rel =>
    if h : pos < buffer.length then
      let ch := buffer[pos]
      if VARIABLES.any (fun v => v[rel]? = some ch) then
        if ch = '>' then
          some ⟨.var (subSlice buffer (start + 1) pos), subSlice buffer start (pos + 1)⟩
        else tryParseVariableGo buffer start fuel (pos + 1) (rel + 1)
      else none
    else none

/-- `FormattedText::try_parse_variable`. -/
def tryParseVariable (buffer : List Char) (start : Nat) : Option TextElement :=
  tryParseVariableGo buffer start (buffer.length + 1) start 0

/-- The nested fn `push_text_from_prev_el` of `FormattedText::parse`. -/
def pushTextFromPrevEl (buffer : List Char) (lastElPos pos : Nat)
    (elements : List TextElement) : List TextElement :=
  if lastElPos ≠ buffer.length ∧ lastElPos ≠ pos then
    elements ++ [⟨.text, subSlice buffer lastElPos pos⟩]
  else elements

/-- The `while pos < buffer.len()` loop of `FormattedText::parse`, with an
explicit fuel counting loop iterations.  `none` means the loop is still
running after `fuel` iterations (the Rust loop does not terminate when the
scan reaches a `'\r'` not followed by `'\n'`: its `continue` skips the
`pos += 1` at the bottom of the loop).  Note that the `'<'`, `'{'`, `'\n'`
and `'['` arms fall through to that same `pos += 1` even after consuming an
element, so the scan position then advances one past the consumed element;
only the `'\r\n'` arm ends in `continue`. -/
def parseLoop (buffer : List Char) :
    Nat → Nat → Nat → List TextElement → Option (List TextElement)
  | 0, _, _, _ => none
  | fuel + 1, pos, lastElPos, elements =>
    if h : pos < buffer.length then
      let ch := buffer[pos]
      if ch = '<' then
        match (tryParseVariable buffer pos).orElse
            (fun _ => (tryParseCurrentParameter buffer pos).orElse
              (fun _ => tryParseTextSelection buffer pos)) with
        | some el =>
          parseLoop buffer fuel (pos + el.value.length + 1) (pos + el.value.length)
            (pushTextFromPrevEl buffer lastElPos pos elements ++ [el])
        | none => parseLoop buffer fuel (pos + 1) lastElPos elements
      else if ch = '{' then
        match tryParseFormula buffer pos with
        | some el =>
          parseLoop buffer fuel (pos + el.value.length + 1) (pos + el.value.length)
            (pushTextFromPrevEl buffer lastElPos pos elements ++ [el])
        | none => parseLoop buffer fuel (pos + 1) lastElPos elements
      else if ch = '\n' then
        parseLoop buffer fuel (pos + 2) (pos + 1)
          (pushTextFromPrevEl buffer lastElPos pos elements ++ [⟨.newLine, cs "\n"⟩])
      else if ch = '\r' then
        if buffer[pos + 1]? = some '\n' then
          parseLoop buffer fuel (pos + 2) (pos + 2)
            (pushTextFromPrevEl buffer lastElPos pos elements ++ [⟨.newLine, cs "\r\n"⟩])
        else
          parseLoop buffer fuel pos lastElPos elements
      else if ch = '[' then
        match tryParseParameter buffer pos with
        | some el =>
          parseLoop buffer fuel (pos + el.value.length + 1) (pos + el.value.length)
            (pushTextFromPrevEl buffer lastElPos pos elements ++ [el])
        | none => parseLoop buffer fuel (pos + 1) lastElPos elements
      else parseLoop buffer fuel (pos + 1) lastElPos elements
    else some (pushTextFromPrevEl buffer lastElPos pos elements)

/-- `FormattedText::parse`, fuel-indexed (see `parseLoop`). -/
def parseFuel (fuel : Nat) (text : List Char) : Option (List TextElement) :=
  if text = [] then some []
  else parseLoop text fuel 0 0 []

end FormattedText

/-! ## Formula scanner (`formula.rs`) -/

/-- `ToRangeValue` from `formula.rs`. -/
inductive ToRangeValue where
  | parameter (index : Nat)
  | integer (value : Int)
deriving DecidableEq, Repr

/-- `FormulaTokenKind` from `formula.rs`.  `In`, `And`, `Or` are suffixed
with `Op` (Lean keywords); a `Double` keeps the literal characters the Rust
code feeds to `str::parse::<f64>` (the decoder never computes with the
float); a `Range` holds its `RangeInclusive<i32>` list as (start, end)
pairs; the `end` field of `ToRange` is renamed `stop` (Lean keyword). -/
inductive FormulaTokenKind where
  | openParenthesis
  | closeParenthesis
  | substract
  | add
  | multiply
  | divide
  | divideWithRemain
  | modulo
  | inOp
  | andOp
  | orOp
  | greater
  | greaterOrEqual
  | lesser
  | lesserOrEqual
  | equal
  | notEqual
  | assignment
  | integer (value : Int)
  | double (literal : List Char)
  | parameter (value : Nat)
  | range (value : List (Int × Int))
  | toRange (start : ToRangeValue) (stop : ToRangeValue)
deriving DecidableEq, Repr

/-- `FormulaToken` from `formula.rs`. -/
structure FormulaToken where
  kind : FormulaTokenKind
  value : List Char
deriving DecidableEq, Repr

/-- `FormulaErrorKind` from `formula.rs`. -/
inductive FormulaErrorKind where
  | unexpectedToken (found : Char) (expected : Option (List Char))
  | expectedInteger
  | expectedDouble
  | unexpectedEOF
deriving DecidableEq, Repr

/-- `FormulaError` from `formula.rs`. -/
structure FormulaError where
  position : Nat
  kind : FormulaErrorKind
deriving DecidableEq, Repr

/-- Outcome of a Rust `Option<Result<FormulaToken, FormulaError>>` helper,
with two extra outcomes: `crashed` for the branches where the Rust code
indexes `buffer[pos]` out of bounds (a panic), and `spun` for fuel
exhaustion of the embedded loop (unreachable with the fuel chosen below,
since every iteration advances the position). -/
inductive TryOut where
  | noMatch
  | ok (t : FormulaToken)
  | err (e : FormulaError)
  | crashed
  | spun
deriving DecidableEq, Repr

/-- `opt.or_else(|| other)` on `Option<Result<..>>`: only a `None` first
component falls through to the second candidate. -/
def TryOut.orElseT (a b : TryOut) : TryOut :=
  match a with
  | .noMatch => b
  | x => x

/-- Outcome of `Formula::parse` (`Result<Formula, FormulaError>` plus the
`crashed`/`spun` outcomes of `TryOut`). -/
inductive FOut (α : Type) where
  | ok (a : α)
  | err (e : FormulaError)
  | crashed
  | spun
deriving DecidableEq, Repr

namespace Formula

/-- Digit run to `Nat` (helper for the `str::parse` models). -/
def digitsToNat (s : List Char) : Option Nat :=
  if s ≠ [] ∧ s.all Char.isDigit then
    some (s.foldl (fun acc c => acc * 10 + (c.toNat - 48)) 0)
  else none

/-- Model of `str::parse::<i32>` on the literals collected by
`Formula::try_parse_number` (an optional leading `'-'` followed by digit
characters; empty or overflowing literals fail).  A leading `'+'`, which
Rust would also accept, can never occur in a collected literal. -/
def parseI32Chars (s : List Char) : Option Int :=
  match s with
  | '-' :: rest =>
    match digitsToNat rest with
    | some v => if (v : Int) ≤ 2 ^ 31 then some (-(v : Int)) else none
    | none => none
  | _ =>
    match digitsToNat s with
    | some v => if (v : Int) < 2 ^ 31 then some (v : Int) else none
    | none => none

/-- Model of the success of `str::parse::<f64>` on the literals collected by
`Formula::try_parse_number` with a decimal point (an optional leading `'-'`,
digits, exactly one `'.'`): parsing succeeds exactly when the literal
contains at least one digit. -/
def f64LiteralOk (s : List Char) : Bool := s.any Char.isDigit

/-- The collecting loop of `Formula::try_parse_number`: returns the end
position of the literal and whether a decimal point was seen, or the
double-decimal-point error. -/
def numScanGo (buffer : List Char) (start : Nat) :
    Nat → Nat → Bool → Except FormulaError (Nat × Bool)
  | 0, pos, isDouble => .ok (pos, isDouble)
  | fuel + 1, pos, isDouble =>
    if h : pos < buffer.length then
      let ch := buffer[pos]
      if ch.isDigit then numScanGo buffer start fuel (pos + 1) isDouble
      else if ch = '.' then
        if buffer[pos + 1]? = some '.' then .ok (pos, isDouble)
        else if isDouble then .error ⟨pos, .unexpectedToken '.' none⟩
        else numScanGo buffer start fuel (pos + 1) true
      else if ch = '-' then
        if pos ≠ start then .ok (pos, isDouble) else numScanGo buffer start fuel (pos + 1) isDouble
      else .ok (pos, isDouble)
    else .ok (pos, isDouble)

/-- `Formula::try_parse_number`. -/
def tryParseNumber (buffer : List Char) (start : Nat) : TryOut :=
  match numScanGo buffer start (buffer.length + 1) start false with
  | .error e => .err e
  | .ok (endPos, isDouble) =>
    let s := subSlice buffer start endPos
    if isDouble then
      if f64LiteralOk s then .ok ⟨.double s, s⟩ else .noMatch
    else
      match parseI32Chars s with
      | some v => .ok ⟨.integer v, s⟩
      | none => .noMatch

/-- The loop of `Formula::try_parse_word` (iteration budget as in
`tryParseParameterGo`; the fuel-exhausted answer is never reached). -/
def tryParseWordGo (word buffer : List Char) : Nat → Nat → Nat → Bool
  | 0, _, rel => rel = word.length
  | fuel + 1, pos, rel =>
    if h : pos < buffer.length then
      if rel = word.length then true
      else
        match word[rel]? with
        | none => false
        | some tch =>
          if buffer[pos] ≠ tch then false else tryParseWordGo word buffer fuel (pos + 1) (rel + 1)
    else rel = word.length

/-- `Formula::try_parse_word`. -/
def tryParseWord (word : List Char) (buffer : List Char) (start : Nat) : Bool :=
  tryParseWordGo word buffer (buffer.length + 1) start 0

/-- The space-skipping loops of `Formula::try_parse_to_range` (iteration
budget as in `tryParseParameterGo`). -/
def skipSpacesGo (buffer : List Char) : Nat → Nat → Nat
  | 0, pos => pos
  | fuel + 1, pos =>
    if h : pos < buffer.length then
      if buffer[pos] = ' ' then skipSpacesGo buffer fuel (pos + 1) else pos
    else pos

/-- The space-skipping loops of `Formula::try_parse_to_range`. -/
def skipSpaces (buffer : List Char) (pos : Nat) : Nat :=
  skipSpacesGo buffer (buffer.length + 1) pos

/-- `Formula::try_parse_parameter` (the formula scanner's own, distinct from
the markup scanner's).  Rust indexes `buffer[pos]` for the error message
after the closing-bracket check, a panic when the literal ends the buffer:
outcome `crashed`. -/
def tryParseParameterF (buffer : List Char) (start : Nat) : TryOut :=
  if start + 2 ≤ buffer.length ∧ subSlice buffer start (start + 2) = cs "[p" then
    match tryParseNumber buffer (start + 2) with
    | .err e => .err e
    | .crashed => .crashed
    | .spun => .spun
    | .noMatch => .err ⟨start + 2, .expectedInteger⟩
    | .ok t =>
      match t.kind with
      | .integer v =>
        if buffer[start + 2 + t.value.length]? = some ']' then
          .ok ⟨.parameter (usizeOfI32 v), subSlice buffer start (start + 2 + t.value.length + 1)⟩
        else
          match buffer[start + 2 + t.value.length]? with
          | some c => .err ⟨start + 2 + t.value.length, .unexpectedToken c (some (cs "]"))⟩
          | none => .crashed
      | _ => .err ⟨start + 2, .expectedInteger⟩
  else .noMatch

/-- Kind filter shared by the two operand positions of
`Formula::try_parse_to_range` (only `Parameter` and `Integer` tokens are
accepted as range anchors). -/
def toRangeValueOfKind : FormulaTokenKind → Option ToRangeValue
  | .parameter idx => some (.parameter idx)
  | .integer v => some (.integer v)
  | _ => none

/-- `Formula::try_parse_to_range`. -/
def tryParseToRange (buffer : List Char) (start : Nat) : TryOut :=
  match (tryParseParameterF buffer start).orElseT (tryParseNumber buffer start) with
  | .err e => .err e
  | .crashed => .crashed
  | .spun => .spun
  | .noMatch =>
    match buffer[start]? with
    | some c => .err ⟨start, .unexpectedToken c none⟩
    | none => .crashed
  | .ok t =>
    match toRangeValueOfKind t.kind with
    | none => .noMatch
    | some startVal =>
      let pos2 := skipSpaces buffer (start + t.value.length)
      if pos2 = buffer.length then .noMatch
      else if pos2 + 2 ≤ buffer.length ∧ subSlice buffer pos2 (pos2 + 2) = cs "to" then
        let pos3 := skipSpaces buffer (pos2 + 2)
        if pos3 = buffer.length then .err ⟨pos3, .unexpectedEOF⟩
        else
          match (tryParseParameterF buffer pos3).orElseT (tryParseNumber buffer pos3) with
          | .err e => .err e
          | .crashed => .crashed
          | .spun => .spun
          | .noMatch =>
            match buffer[pos3]? with
            | some c => .err ⟨pos3, .unexpectedToken c none⟩
            | none => .crashed
          | .ok t2 =>
            match toRangeValueOfKind t2.kind with
            | some endVal =>
              .ok ⟨.toRange startVal endVal, subSlice buffer start (pos3 + t2.value.length)⟩
            | none =>
              match buffer[pos3]? with
              | some c => .err ⟨pos3, .unexpectedToken c none⟩
              | none => .crashed
      else .noMatch

/-- The after-loop closing-bracket check of `Formula::try_parse_range`
(lines 546-562): reached by `break` or by the loop condition failing; Rust
indexes `buffer[pos]` for the error message, a panic when `pos` is at the
end of the buffer. -/
def rangeFinish (buffer : List Char) (start pos : Nat) (ranges : List (Int × Int)) : TryOut :=
  match buffer[pos]? with
  | some ']' => .ok ⟨.range ranges, subSlice buffer start (pos + 1)⟩
  | some c => .err ⟨pos, .unexpectedToken c (some (cs "]"))⟩
  | none => .crashed

/-- The `while pos < buffer.len()` loop of `Formula::try_parse_range`, with
fuel counting iterations (every iteration advances `pos`, so the fuel
chosen by the caller can never run out).  Note the single-integer-then-`]`
path breaks without pushing its interval, faithful to the source. -/
def rangeLoop (buffer : List Char) (start : Nat) :
    Nat → Nat → List (Int × Int) → TryOut
  | 0, _, _ => .spun
  | fuel + 1, pos, ranges =>
    if _h : pos < buffer.length then
      match tryParseNumber buffer pos with
      | .err e => .err e
      | .crashed => .crashed
      | .spun => .spun
      | .noMatch => .noMatch
      | .ok t =>
        match t.kind with
        | .integer v =>
          if pos + t.value.length + 2 ≤ buffer.length ∧
              subSlice buffer (pos + t.value.length) (pos + t.value.length + 2) = cs ".." then
            match tryParseNumber buffer (pos + t.value.length + 2) with
            | .err e => .err e
            | .crashed => .crashed
            | .spun => .spun
            | .noMatch => .err ⟨pos + t.value.length + 2, .expectedInteger⟩
            | .ok t2 =>
              match t2.kind with
              | .integer v2 =>
                match buffer[pos + t.value.length + 2 + t2.value.length]? with
                | some ']' =>
                  rangeFinish buffer start (pos + t.value.length + 2 + t2.value.length)
                    (ranges ++ [(v, v2)])
                | some ';' =>
                  rangeLoop buffer start fuel (pos + t.value.length + 2 + t2.value.length + 1)
                    (ranges ++ [(v, v2)])
                | some c =>
                  .err ⟨pos + t.value.length + 2 + t2.value.length,
                    .unexpectedToken c (some (cs ";"))⟩
                | none => .crashed
              | _ => .err ⟨pos + t.value.length + 2, .expectedInteger⟩
          else
            match buffer[pos + t.value.length]? with
            | some ';' => rangeLoop buffer start fuel (pos + t.value.length + 1) (ranges ++ [(v, v)])
            | some ']' => rangeFinish buffer start (pos + t.value.length) ranges
            | some c => .err ⟨pos + t.value.length, .unexpectedToken c (some (cs "; or ]"))⟩
            | none => .err ⟨pos + t.value.length, .unexpectedEOF⟩
        | _ => .err ⟨pos, .expectedInteger⟩
    else rangeFinish buffer start pos ranges

/-- `Formula::try_parse_range`.  Rust indexes `buffer[pos]` before anything
else, a panic when `start` is out of bounds (its caller dispatches on
`buffer[pos] == '['`, so this cannot happen from `Formula::parse`). -/
def tryParseRange (buffer : List Char) (start : Nat) : TryOut :=
  if h : start < buffer.length then
    if buffer[start] ≠ '[' then .noMatch
    else if buffer[start + 1]? = some ']' then .err ⟨start + 1, .expectedInteger⟩
    else rangeLoop buffer start (buffer.length + 1) (start + 1) []
  else .crashed

/-- The `while pos < buffer.len()` dispatch loop of `Formula::parse`, with
fuel counting iterations (every iteration advances `pos`, so the fuel
chosen by `Formula.parse` can never run out). -/
def parseLoopF (buffer : List Char) : Nat → Nat → List FormulaToken → FOut (List FormulaToken)
  | 0, _, _ => .spun
  | fuel + 1, pos, tokens =>
    if h : pos < buffer.length then
      let ch := buffer[pos]
      if ch = '(' then parseLoopF buffer fuel (pos + 1) (tokens ++ [⟨.openParenthesis, cs "("⟩])
      else if ch = ')' then parseLoopF buffer fuel (pos + 1) (tokens ++ [⟨.closeParenthesis, cs ")"⟩])
      else if ch = '-' then
        match tryParseNumber buffer pos with
        | .err e => .err e
        | .crashed => .crashed
        | .spun => .spun
        | .ok t => parseLoopF buffer fuel (pos + t.value.length) (tokens ++ [t])
        | .noMatch => parseLoopF buffer fuel (pos + 1) (tokens ++ [⟨.substract, cs "-"⟩])
      else if ch = '+' then parseLoopF buffer fuel (pos + 1) (tokens ++ [⟨.add, cs "+"⟩])
      else if ch = '*' then parseLoopF buffer fuel (pos + 1) (tokens ++ [⟨.multiply, cs "*"⟩])
      else if ch = '/' then parseLoopF buffer fuel (pos + 1) (tokens ++ [⟨.divide, cs "/"⟩])
      else if ch = 'd' then
        if tryParseWord (cs "div") buffer pos then
          parseLoopF buffer fuel (pos + 3) (tokens ++ [⟨.divideWithRemain, cs "div"⟩])
        else .err ⟨pos, .unexpectedToken 'd' (some (cs "div"))⟩
      else if ch = 'm' then
        if tryParseWord (cs "mod") buffer pos then
          parseLoopF buffer fuel (pos + 3) (tokens ++ [⟨.modulo, cs "mod"⟩])
        else .err ⟨pos, .unexpectedToken 'm' (some (cs "mod"))⟩
      else if ch = 'a' then
        if tryParseWord (cs "and") buffer pos then
          parseLoopF buffer fuel (pos + 3) (tokens ++ [⟨.andOp, cs "and"⟩])
        else .err ⟨pos, .unexpectedToken 'a' (some (cs "and"))⟩
      else if ch = 'o' then
        if tryParseWord (cs "or") buffer pos then
          parseLoopF buffer fuel (pos + 2) (tokens ++ [⟨.orOp, cs "or"⟩])
        else .err ⟨pos, .unexpectedToken 'o' (some (cs "or"))⟩
      else if ch = 'i' then
        if tryParseWord (cs "in") buffer pos then
          parseLoopF buffer fuel (pos + 2) (tokens ++ [⟨.inOp, cs "in"⟩])
        else .err ⟨pos, .unexpectedToken 'i' (some (cs "in"))⟩
      else if ch = '>' then
        if tryParseWord (cs ">=") buffer pos then
          parseLoopF buffer fuel (pos + 2) (tokens ++ [⟨.greaterOrEqual, cs ">="⟩])
        else parseLoopF buffer fuel (pos + 1) (tokens ++ [⟨.greater, cs ">"⟩])
      else if ch = '<' then
        if tryParseWord (cs "<=") buffer pos then
          parseLoopF buffer fuel (pos + 2) (tokens ++ [⟨.lesserOrEqual, cs "<="⟩])
        else if tryParseWord (cs "<>") buffer pos then
          parseLoopF buffer fuel (pos + 2) (tokens ++ [⟨.notEqual, cs "<>"⟩])
        else parseLoopF buffer fuel (pos + 1) (tokens ++ [⟨.lesser, cs "<"⟩])
      else if ch = '=' then
        if tryParseWord (cs "==") buffer pos then
          parseLoopF buffer fuel (pos + 2) (tokens ++ [⟨.equal, cs "=="⟩])
        else parseLoopF buffer fuel (pos + 1) (tokens ++ [⟨.assignment, cs "="⟩])
      else if ch.isDigit then
        match (tryParseToRange buffer pos).orElseT (tryParseNumber buffer pos) with
        | .ok t => parseLoopF buffer fuel (pos + t.value.length) (tokens ++ [t])
        | .err e => .err e
        | .noMatch => .err ⟨pos, .expectedInteger⟩
        | .crashed => .crashed
        | .spun => .spun
      else if ch = '[' then
        match (tryParseRange buffer pos).orElseT
            ((tryParseToRange buffer pos).orElseT (tryParseParameterF buffer pos)) with
        | .ok t => parseLoopF buffer fuel (pos + t.value.length) (tokens ++ [t])
        | .noMatch => .err ⟨pos, .unexpectedToken '[' none⟩
        | .err e => .err e
        | .crashed => .crashed
        | .spun => .spun
      else if ch = ' ' then parseLoopF buffer fuel (pos + 1) tokens
      else .err ⟨pos, .unexpectedToken ch none⟩
    else .ok tokens

/-- `Formula::parse`. -/
def parse (text : List Char) : FOut (List FormulaToken) :=
  parseLoopF text (text.length + 1) 0 []

end Formula

/-! ## Binary decoders (`qmm/*.rs`) -/

/-- `FormattedText` (the markup scanner's output struct). -/
structure FormattedText where
  elements : List TextElement
deriving DecidableEq, Repr

/-- `Formula` (the formula scanner's output struct). -/
structure Formula where
  tokens : List FormulaToken
deriving DecidableEq, Repr

/-- `Version` from `qmm/types.rs`. -/
inductive Version where
  | qmm6
  | qmm7
deriving DecidableEq, Repr

/-- `Race` from `qmm/types.rs` (a `bitflags` set over mask `0x1F`). -/
structure Race where
  bits : Nat
deriving DecidableEq, Repr

/-- `Race::try_from(u8)`, i.e. `Race::from_bits`: defined exactly on bytes
with no bit outside `0x1F` set. -/
def raceTryFrom (v : Nat) : Option Race :=
  if v &&& 0xE0 = 0 then some ⟨v⟩ else none

/-- `CompletionCondition` from `qmm/types.rs`. -/
inductive CompletionCondition where
  | immediately
  | afterReturning
deriving DecidableEq, Repr

/-- `CompletionCondition::try_from(u8)`. -/
def completionConditionTryFrom (v : Nat) : Option CompletionCondition :=
  match v with
  | 0 => some .afterReturning
  | 1 => some .immediately
  | _ => none

/-- `PlanetType` from `qmm/types.rs`. -/
inductive PlanetType where
  | populated (race : Race)
  | uninhabited
deriving DecidableEq, Repr

/-- `PlayerStatus` from `qmm/types.rs` (a `bitflags` set over mask `0x07`). -/
structure PlayerStatus where
  bits : Nat
deriving DecidableEq, Repr

/-- `PlayerStatus::try_from(u8)`, i.e. `PlayerStatus::from_bits`. -/
def playerStatusTryFrom (v : Nat) : Option PlayerStatus :=
  if v &&& 0xF8 = 0 then some ⟨v⟩ else none

/-- `JumpsLimit` from `qmm/types.rs`. -/
inductive JumpsLimit where
  | infinite
  | limit (n : Nat)
deriving DecidableEq, Repr

/-- `Header` from `qmm/types.rs` (`relation_change: i8` as `Int`;
`difficult: u32` and `parameters_count: usize` as `Nat`). -/
structure Header where
  version : Version
  giver_race : Race
  completion_condition : CompletionCondition
  quest_planet_type : PlanetType
  player_status : PlayerStatus
  player_race : Race
  relation_change : Int
  default_jumps_limit : JumpsLimit
  difficult : Nat
  parameters_count : Nat
deriving DecidableEq, Repr

/-- `ParameterType` from `qmm/types.rs`. -/
inductive ParameterType where
  | ordinary
  | fail
  | win
  | death
deriving DecidableEq, Repr

/-- `ParameterType::try_from(u8)`. -/
def parameterTypeTryFrom (v : Nat) : Option ParameterType :=
  match v with
  | 0 => some .ordinary
  | 1 => some .fail
  | 2 => some .win
  | 3 => some .death
  | _ => none

/-- `CriticalValue` from `qmm/types.rs`. -/
inductive CriticalValue where
  | min
  | max
deriving DecidableEq, Repr

/-- `FormattedRangeLine` from `qmm/types.rs`. -/
structure FormattedRangeLine where
  from_value : Int
  to_value : Int
  value : List Char
deriving DecidableEq, Repr

/-- `Parameter` from `qmm/types.rs`. -/
structure Parameter where
  min_value : Int
  max_value : Int
  ty : ParameterType
  show_when_zero : Bool
  critical_value : CriticalValue
  is_active : Bool
  is_money : Bool
  name : List Char
  formatted_range_lines : List FormattedRangeLine
  critical_text : List Char
  image : List Char
  sound : List Char
  track : List Char
  starting_value : List Char
deriving DecidableEq, Repr

/-- `StringReplacements` from `qmm/types.rs`. -/
structure StringReplacements where
  to_star : List Char
  to_planet : List Char
  from_planet : List Char
  from_star : List Char
  ranger : List Char
deriving DecidableEq, Repr

/-- `Info` from `qmm/types.rs` (`u32` counts as `Nat`). -/
structure Info where
  locations_count : Nat
  jumps_count : Nat
  success_text : FormattedText
  task_text : FormattedText
deriving DecidableEq, Repr

/-- `MaxVisits` from `qmm/types.rs`. -/
inductive MaxVisits where
  | infinite
  | limit (n : Nat)
deriving DecidableEq, Repr

/-- `LocationType` from `qmm/types.rs`. -/
inductive LocationType where
  | ordinary
  | starting
  | empty
  | success
  | fail
  | death
deriving DecidableEq, Repr

/-- `LocationType::try_from(u8)`. -/
def locationTypeTryFrom (v : Nat) : Option LocationType :=
  match v with
  | 0 => some .ordinary
  | 1 => some .starting
  | 2 => some .empty
  | 3 => some .success
  | 4 => some .fail
  | 5 => some .death
  | _ => none

/-- `ParameterShowType` from `qmm/types.rs`. -/
inductive ParameterShowType where
  | nothing
  | show
  | hide
deriving DecidableEq, Repr

/-- `ParameterShowType::try_from(u8)`. -/
def parameterShowTypeTryFrom (v : Nat) : Option ParameterShowType :=
  match v with
  | 0 => some .nothing
  | 1 => some .show
  | 2 => some .hide
  | _ => none

/-- `ParameterChangeType` from `qmm/types.rs`. -/
inductive ParameterChangeType where
  | value
  | sum
  | percentage
  | formula
deriving DecidableEq, Repr

/-- `ParameterChangeType::try_from(u8)`. -/
def parameterChangeTypeTryFrom (v : Nat) : Option ParameterChangeType :=
  match v with
  | 0 => some .value
  | 1 => some .sum
  | 2 => some .percentage
  | 3 => some .formula
  | _ => none

/-- `Media` from `qmm/types.rs`. -/
structure Media where
  image : List Char
  sound : List Char
  track : List Char
deriving DecidableEq, Repr

/-- `ParameterChange` from `qmm/types.rs`. -/
structure ParameterChange where
  parameter_id : Nat
  show_type : ParameterShowType
  change_type : ParameterChangeType
  formula : Formula
  critical_text : List Char
  media : Media
deriving DecidableEq, Repr

/-- `LocationSelectType` from `qmm/types.rs`. -/
inductive LocationSelectType where
  | byOrder
  | byFormula (f : Formula)
deriving DecidableEq, Repr

/-- `LocationId` from `qmm/types.rs`. -/
structure LocationId where
  id : Nat
deriving DecidableEq, Repr

/-- `Location` from `qmm/types.rs`. -/
structure Location where
  do_pass_day : Bool
  id : LocationId
  max_visits : MaxVisits
  ty : LocationType
  parameter_changes : List ParameterChange
  texts : List FormattedText
  media : List Media
  select_type : LocationSelectType
deriving DecidableEq, Repr

/-- `JumpId` from `qmm/types.rs`. -/
structure JumpId where
  id : Nat
deriving DecidableEq, Repr

/-- `JumpParameterCondition` from `qmm/types.rs`. -/
structure JumpParameterCondition where
  parameter_id : Nat
  range_start : Int
  range_end : Int
  must_equal : Bool
  must_equal_values : List Int
  must_mod : Bool
  must_mod_values : List Int
deriving DecidableEq, Repr

/-- `Jump` from `qmm/types.rs` (`priority: f64` kept as its little-endian
64-bit pattern, a `Nat`; the decoder never computes with it). -/
structure Jump where
  priority : Nat
  do_pass_day : Bool
  id : JumpId
  from_id : LocationId
  to_id : LocationId
  show_always : Bool
  max_visits : MaxVisits
  show_order : Nat
  parameters_conditions : List JumpParameterCondition
  parameter_changes : List ParameterChange
  formula : Formula
  text : FormattedText
  description : FormattedText
  media : Media
deriving DecidableEq, Repr

/-- `Quest` from `qmm/types.rs`. -/
structure Quest where
  header : Header
  parameters : List Parameter
  string_replacements : StringReplacements
  info : Info
  locations : List Location
  jumps : List Jump
deriving DecidableEq, Repr

/-- `HeaderError` from `qmm/types.rs`. -/
inductive HeaderError where
  | InvalidMagic
  | InvalidQuestGiverRace
  | InvalidCompletionCondition
  | InvalidQuestPlanetType
  | InvalidPlayerStatus
  | InvalidPlayerRace
  | InvalidRelationChange
deriving DecidableEq, Repr

/-- `ParameterError` from `qmm/types.rs`. -/
inductive ParameterError where
  | InvalidType
  | InvalidCriticalValue
deriving DecidableEq, Repr

/-- `LocationError` from `qmm/types.rs`. -/
inductive LocationError where
  | InvalidLocationType
deriving DecidableEq, Repr

/-- `ParameterChangeError` from `qmm/types.rs`. -/
inductive ParameterChangeError where
  | InvalidShowType
  | InvalidChangeType
deriving DecidableEq, Repr

/-- `ParsingError` from `qmm/types.rs`. -/
inductive ParsingError where
  | InvalidHeader (e : HeaderError)
  | InvalidParameter (e : ParameterError)
  | InvalidLocation (e : LocationError)
  | InvalidParameterChange (e : ParameterChangeError)
  | InvalidBool
  | InvalidString
  | Incomplete
  | ExpectedEnd
  | InvalidFormula (error : FormulaError) (formula : List Char)
deriving DecidableEq, Repr

/-- Outcome of running a record decoder over a byte buffer with a cursor
position: success with the decoded value and the new position, a
`ParsingError`, or `stuck` — the decoder called the markup scanner and the
scanner's fuel ran out (modelling its potential divergence), or an embedded
scanner call panicked. -/
inductive QOut (α : Type) where
  | ok (a : α) (pos : Nat)
  | err (e : ParsingError)
  | stuck
deriving DecidableEq, Repr

/-- A record decoder: the model of a Rust fn taking `&mut Cursor<&[u8]>` and
returning `Result<α, ParsingError>`. -/
def QP (α : Type) : Type := List Nat → Nat → QOut α

/-- Monadic return: no bytes consumed. -/
def QP.pure (a : α) : QP α := fun _ pos => .ok a pos

/-- Monadic sequencing: the model of `?`-propagation on the shared cursor. -/
def QP.bind (p : QP α) (f : α → QP β) : QP β := fun buf pos =>
  match p buf pos with
  | .ok a pos' => f a buf pos'
  | .err e => .err e
  | .stuck => .stuck

instance : Monad QP where
  pure := QP.pure
  bind := QP.bind

/-- `return Err(e)`. -/
def QP.throw (e : ParsingError) : QP α := fun _ _ => .err e

/-- `Cursor::read_exact` into an `n`-byte array: fails with `Incomplete`
when fewer than `n` bytes remain (the Rust failure does not move the cursor,
and the whole decode aborts, so the position after a failure is
unobservable). -/
def readBytesN (n : Nat) : QP (List Nat) := fun buf pos =>
  if n = 0 then .ok [] pos
  else if pos + n ≤ buf.length then .ok (subSlice buf pos (pos + n)) (pos + n)
  else .err .Incomplete

/-- Little-endian value of a byte list. -/
def leNat (bs : List Nat) : Nat := bs.foldr (fun b acc => b + 256 * acc) 0

/-- Two's-complement reading of a 32-bit little-endian value. -/
def toI32 (u : Nat) : Int :=
  if u % 2 ^ 32 < 2 ^ 31 then ((u % 2 ^ 32 : Nat) : Int) else ((u % 2 ^ 32 : Nat) : Int) - 2 ^ 32

namespace PrimitiveParser

/-- `PrimitiveParser::parse_i32`. -/
def parse_i32 : QP Int := do
  let bs ← readBytesN 4
  pure (toI32 (leNat bs))

/-- `PrimitiveParser::parse_f64` (the value is kept as its little-endian
64-bit pattern). -/
def parse_f64 : QP Nat := do
  let bs ← readBytesN 8
  pure (leNat bs)

/-- `PrimitiveParser::parse_byte`. -/
def parse_byte : QP Nat := do
  let bs ← readBytesN 1
  pure (leNat bs)

/-- `PrimitiveParser::parse_bool`. -/
def parse_bool : QP Bool := do
  let b ← parse_byte
  match b with
  | 0 => pure false
  | 1 => pure true
  | _ => QP.throw .InvalidBool

end PrimitiveParser

/-- A 4-byte little-endian `u32` read (`u32::from_le_bytes`). -/
def readU32 : QP Nat := do
  let bs ← readBytesN 4
  pure (leNat bs)

/-- The `bytemuck::try_cast_slice::<u8, u16>` view: consecutive byte pairs
as little-endian 16-bit units.  (The Rust cast can also fail on pointer
misalignment, a memory-layout condition outside this model; the byte length
is always even here.) -/
def utf16Units : List Nat → List Nat
  | b0 :: b1 :: rest => (b0 + 256 * b1) :: utf16Units rest
  | _ => []

/-- `String::from_utf16`: decodes 16-bit units, pairing surrogates; fails on
an unpaired surrogate. -/
def utf16Decode : List Nat → Option (List Char)
  | [] => some []
  | u :: rest =>
    if u < 0xD800 ∨ 0xE000 ≤ u then (utf16Decode rest).map (fun tail => Char.ofNat u :: tail)
    else if 0xDC00 ≤ u then none
    else
      match rest with
      | u2 :: rest2 =>
        if 0xDC00 ≤ u2 ∧ u2 < 0xE000 then
          (utf16Decode rest2).map
            (fun tail => Char.ofNat (0x10000 + (u - 0xD800) * 0x400 + (u2 - 0xDC00)) :: tail)
        else none
      | [] => none

/-- `StringParser::parse`. -/
def StringParser.parse : QP (List Char) := do
  let has ← readU32
  if has = 0 then pure []
  else do
    let len ← readU32
    if len * 2 = 0 then pure []
    else do
      let bs ← readBytesN (len * 2)
      match utf16Decode (utf16Units bs) with
      | some s => QP.pure s
      | none => QP.throw .InvalidString

/-- Running `FormattedText::parse` on an already-decoded string inside a
record decoder; the scanner's fuel exhaustion (its possible divergence on a
lone `'\r'`) is the `stuck` outcome. -/
def liftFt (N : Nat) (s : List Char) : QP FormattedText := fun _ pos =>
  match FormattedText.parseFuel N s with
  | some els => .ok ⟨els⟩ pos
  | none => .stuck

/-- Running `Formula::parse` on an already-decoded string inside a record
decoder: a scanner error becomes `ParsingError::InvalidFormula` carrying the
source text (the `map_err` closures in the location/jump/parameter-change
decoders); a scanner panic is `stuck`. -/
def liftFormula (s : List Char) : QP Formula := fun _ pos =>
  match Formula.parse s with
  | .ok toks => .ok ⟨toks⟩ pos
  | .err e => .err (.InvalidFormula e s)
  | .crashed => .stuck
  | .spun => .stuck

/-- A count-controlled record loop (`while iters < count { push(parse()?) }`). -/
def qcount (n : Nat) (p : QP α) : QP (List α) :=
  match n with
  | 0 => pure []
  | k + 1 => do
    let a ← p
    let rest ← qcount k p
    pure (a :: rest)

/-- `Version::try_from(&[u8; 4])`. -/
def versionFromMagic (bs : List Nat) : Option Version :=
  if bs = [0xD6, 0x35, 0x3A, 0x42] then some .qmm6
  else if bs = [0xD7, 0x35, 0x3A, 0x42] then some .qmm7
  else none

namespace HeaderParser

/-- `HeaderParser::parse_version`: reads the 4-byte magic, then reads a
12-byte block and rewinds the cursor to just after the magic unless the
block is the `01 00×11` sentinel. -/
def parse_version : QP Version := fun buf pos =>
  if pos + 4 ≤ buf.length then
    match versionFromMagic (subSlice buf pos (pos + 4)) with
    | none => .err (.InvalidHeader .InvalidMagic)
    | some v =>
      if pos + 16 ≤ buf.length then
        if subSlice buf (pos + 4) (pos + 16) = [1, 0, 0, 0, 0, 0, 0, 0, 0, 0, 0, 0] then
          .ok v (pos + 16)
        else .ok v (pos + 4)
      else .err .Incomplete
  else .err .Incomplete

/-- Rust `byte as i8`. -/
def i8OfByte (b : Nat) : Int := if b < 128 then (b : Int) else (b : Int) - 256

/-- Rust release-mode `i8` negation (`-(-128)` wraps to `-128`; a debug
build would panic there instead). -/
def i8Neg (v : Int) : Int := if v = -128 then -128 else -v

/-- `HeaderParser::parse_relation_change`. -/
def parse_relation_change : QP Int := fun buf pos =>
  if pos + 4 ≤ buf.length then
    match subSlice buf pos (pos + 4) with
    | [b0, b1, b2, b3] =>
      if b1 = 0xFF ∧ b2 = 0xFF ∧ b3 = 0xFF then .ok (i8Neg (i8OfByte b0)) (pos + 4)
      else if b1 = 0 ∧ b2 = 0 ∧ b3 = 0 then .ok (i8OfByte b0) (pos + 4)
      else .err (.InvalidHeader .InvalidRelationChange)
    | _ => .err .Incomplete
  else .err .Incomplete

/-- `HeaderParser::parse_quest_giver_race`. -/
def parse_quest_giver_race : QP Race := do
  let b ← PrimitiveParser.parse_byte
  match raceTryFrom b with
  | some r => QP.pure r
  | none => QP.throw (.InvalidHeader .InvalidQuestGiverRace)

/-- `HeaderParser::parse_completion_condition`. -/
def parse_completion_condition : QP CompletionCondition := do
  let b ← PrimitiveParser.parse_byte
  match completionConditionTryFrom b with
  | some c => QP.pure c
  | none => QP.throw (.InvalidHeader .InvalidCompletionCondition)

/-- `HeaderParser::parse_quest_planet_type`. -/
def parse_quest_planet_type : QP PlanetType := do
  let b ← PrimitiveParser.parse_byte
  if b = 0x40 then QP.pure .uninhabited
  else
    match raceTryFrom b with
    | some r => QP.pure (.populated r)
    | none => QP.throw (.InvalidHeader .InvalidQuestPlanetType)

/-- `HeaderParser::parse_player_status`. -/
def parse_player_status : QP PlayerStatus := do
  let b ← PrimitiveParser.parse_byte
  match playerStatusTryFrom b with
  | some s => QP.pure s
  | none => QP.throw (.InvalidHeader .InvalidPlayerStatus)

/-- `HeaderParser::parse_player_race`. -/
def parse_player_race : QP Race := do
  let b ← PrimitiveParser.parse_byte
  match raceTryFrom b with
  | some r => QP.pure r
  | none => QP.throw (.InvalidHeader .InvalidPlayerRace)

/-- `HeaderParser::parse_jumps_limit`. -/
def parse_jumps_limit : QP JumpsLimit := do
  let v ← PrimitiveParser.parse_i32
  if u32OfI32 v = 0 then QP.pure .infinite else QP.pure (.limit (u32OfI32 v))

/-- `HeaderParser::parse`. -/
def parse : QP Header := do
  let version ← parse_version
  let giver_race ← parse_quest_giver_race
  let completion_condition ← parse_completion_condition
  let quest_planet_type ← parse_quest_planet_type
  let player_status ← parse_player_status
  let player_race ← parse_player_race
  let relation_change ← parse_relation_change
  let _ ← PrimitiveParser.parse_i32
  let _ ← PrimitiveParser.parse_i32
  let _ ← PrimitiveParser.parse_i32
  let _ ← PrimitiveParser.parse_i32
  let default_jumps_limit ← parse_jumps_limit
  let difficult ← PrimitiveParser.parse_i32
  let parameters_count ← PrimitiveParser.parse_i32
  QP.pure
    { version, giver_race, completion_condition, quest_planet_type, player_status,
      player_race, relation_change, default_jumps_limit,
      difficult := u32OfI32 difficult, parameters_count := usizeOfI32 parameters_count }

end HeaderParser

namespace ParameterParser

/-- The 3-byte `seek(SeekFrom::Current(3))` of `ParameterParser::parse`
followed by its `parse_bool`: the seek is infallible (it may place the
cursor past the end of the buffer; the next read then fails). -/
def skip3_then_bool : QP Bool := fun buf pos => PrimitiveParser.parse_bool buf (pos + 3)

/-- `ParameterParser::parse_type`. -/
def parse_type : QP ParameterType := do
  let b ← PrimitiveParser.parse_byte
  match parameterTypeTryFrom b with
  | some t => QP.pure t
  | none => QP.throw (.InvalidParameter .InvalidType)

/-- `ParameterParser::parse_critical_value`. -/
def parse_critical_value : QP CriticalValue := do
  let b ← PrimitiveParser.parse_byte
  match b with
  | 0 => QP.pure .max
  | 1 => QP.pure .min
  | _ => QP.throw (.InvalidParameter .InvalidCriticalValue)

/-- The body of `ParameterParser::parse_formatted_range_lines`. -/
def range_line : QP FormattedRangeLine := do
  let f ← PrimitiveParser.parse_i32
  let t ← PrimitiveParser.parse_i32
  let v ← StringParser.parse
  QP.pure ⟨f, t, v⟩

/-- `ParameterParser::parse`. -/
def parse : QP Parameter := do
  let min_value ← PrimitiveParser.parse_i32
  let max_value ← PrimitiveParser.parse_i32
  let ty ← parse_type
  let show_when_zero ← skip3_then_bool
  let critical_value ← parse_critical_value
  let is_active ← PrimitiveParser.parse_bool
  let formatted_lines_count ← PrimitiveParser.parse_i32
  let is_money ← PrimitiveParser.parse_bool
  let name ← StringParser.parse
  let formatted_range_lines ← qcount (usizeOfI32 formatted_lines_count) range_line
  let critical_text ← StringParser.parse
  let image ← StringParser.parse
  let sound ← StringParser.parse
  let track ← StringParser.parse
  let starting_value ← StringParser.parse
  QP.pure
    { min_value, max_value, ty, show_when_zero, critical_value, is_active, is_money,
      name, formatted_range_lines, critical_text, image, sound, track, starting_value }

end ParameterParser

/-- `StringReplacementsParser::parse` (the `<Date>`/`<Money>` slots are read
and discarded). -/
def StringReplacementsParser.parse : QP StringReplacements := do
  let to_star ← StringParser.parse
  let to_planet ← StringParser.parse
  let _ ← StringParser.parse
  let _ ← StringParser.parse
  let from_planet ← StringParser.parse
  let from_star ← StringParser.parse
  let ranger ← StringParser.parse
  QP.pure { to_star, to_planet, from_planet, from_star, ranger }

/-- `InfoParser::parse` (`N` is the markup-scanner fuel, see `liftFt`). -/
def InfoParser.parse (N : Nat) : QP Info := do
  let locations_count ← PrimitiveParser.parse_i32
  let jumps_count ← PrimitiveParser.parse_i32
  let s1 ← StringParser.parse
  let success_text ← liftFt N s1
  let s2 ← StringParser.parse
  let task_text ← liftFt N s2
  QP.pure
    { locations_count := u32OfI32 locations_count, jumps_count := u32OfI32 jumps_count,
      success_text, task_text }

/-- `MediaParser::parse`. -/
def MediaParser.parse : QP Media := do
  let image ← StringParser.parse
  let sound ← StringParser.parse
  let track ← StringParser.parse
  QP.pure { image, sound, track }

/-- The `ParameterShowType::try_from(parse_byte?).map_err(..)` step of
`ParameterChangeParser::parse`. -/
def ParameterChangeParser.parse_show_type : QP ParameterShowType := do
  let b ← PrimitiveParser.parse_byte
  match parameterShowTypeTryFrom b with
  | some s => QP.pure s
  | none => QP.throw (.InvalidParameterChange .InvalidShowType)

/-- The `ParameterChangeType::try_from(parse_byte?).map_err(..)` step of
`ParameterChangeParser::parse`. -/
def ParameterChangeParser.parse_change_type : QP ParameterChangeType := do
  let b ← PrimitiveParser.parse_byte
  match parameterChangeTypeTryFrom b with
  | some c => QP.pure c
  | none => QP.throw (.InvalidParameterChange .InvalidChangeType)

/-- `ParameterChangeParser::parse`. -/
def ParameterChangeParser.parse : QP ParameterChange := do
  let parameter_id ← PrimitiveParser.parse_i32
  let _ ← PrimitiveParser.parse_i32
  let show_type ← ParameterChangeParser.parse_show_type
  let change_type ← ParameterChangeParser.parse_change_type
  let formula_text ← StringParser.parse
  let formula ← liftFormula formula_text
  let critical_text ← StringParser.parse
  let media ← MediaParser.parse
  QP.pure { parameter_id := u32OfI32 parameter_id, show_type, change_type, formula,
            critical_text, media }

/-- `JumpParameterConditionParser::parse`. -/
def JumpParameterConditionParser.parse : QP JumpParameterCondition := do
  let parameter_id ← PrimitiveParser.parse_i32
  let range_start ← PrimitiveParser.parse_i32
  let range_end ← PrimitiveParser.parse_i32
  let must_equal_values_count ← PrimitiveParser.parse_i32
  let must_equal ← PrimitiveParser.parse_bool
  let must_equal_values ← qcount must_equal_values_count.toNat PrimitiveParser.parse_i32
  let must_mod_values_count ← PrimitiveParser.parse_i32
  let must_mod ← PrimitiveParser.parse_bool
  let must_mod_values ← qcount must_mod_values_count.toNat PrimitiveParser.parse_i32
  QP.pure { parameter_id := u32OfI32 parameter_id, range_start, range_end, must_equal,
            must_equal_values, must_mod, must_mod_values }

/-- One iteration of the texts/media loop of `LocationParser::parse`. -/
def locationTextItem (N : Nat) : QP (FormattedText × Media) := do
  let s ← StringParser.parse
  let t ← liftFt N s
  let m ← MediaParser.parse
  QP.pure (t, m)

/-- The `LocationType::try_from(parse_byte?).map_err(..)` step of
`LocationParser::parse`. -/
def LocationParser.parse_location_type : QP LocationType := do
  let b ← PrimitiveParser.parse_byte
  match locationTypeTryFrom b with
  | some t => QP.pure t
  | none => QP.throw (.InvalidLocation .InvalidLocationType)

/-- The `match select_type` step of `LocationParser::parse`: an order-based
selection, or the selection formula run through `Formula::parse`. -/
def LocationParser.select_type_of (flag : Bool) (select_formula : List Char) :
    QP LocationSelectType :=
  match flag with
  | false => QP.pure LocationSelectType.byOrder
  | true => do
    let f ← liftFormula select_formula
    QP.pure (LocationSelectType.byFormula f)

/-- `LocationParser::parse` (the `i32` loop bounds iterate `max(count, 0)`
times, matching `while iter < count` over signed counters). -/
def LocationParser.parse (N : Nat) : QP Location := do
  let do_pass_day ← PrimitiveParser.parse_i32
  let _ ← PrimitiveParser.parse_i32
  let _ ← PrimitiveParser.parse_i32
  let id ← PrimitiveParser.parse_i32
  let max_visits ← PrimitiveParser.parse_i32
  let ty ← LocationParser.parse_location_type
  let parameters_changes_count ← PrimitiveParser.parse_i32
  let parameter_changes ← qcount parameters_changes_count.toNat ParameterChangeParser.parse
  let location_texts_count ← PrimitiveParser.parse_i32
  let pairs ← qcount location_texts_count.toNat (locationTextItem N)
  let select_type_flag ← PrimitiveParser.parse_bool
  let select_formula ← StringParser.parse
  let select_type ← LocationParser.select_type_of select_type_flag select_formula
  QP.pure
    { do_pass_day := 0 < do_pass_day, id := ⟨u32OfI32 id⟩,
      max_visits := if u32OfI32 max_visits = 0 then .infinite else .limit (u32OfI32 max_visits),
      ty, parameter_changes, texts := pairs.map Prod.fst, media := pairs.map Prod.snd,
      select_type }

/-- `JumpParser::parse`. -/
def JumpParser.parse (N : Nat) : QP Jump := do
  let priority ← PrimitiveParser.parse_f64
  let do_pass_day ← PrimitiveParser.parse_i32
  let id ← PrimitiveParser.parse_i32
  let from_id ← PrimitiveParser.parse_i32
  let to_id ← PrimitiveParser.parse_i32
  let show_always ← PrimitiveParser.parse_bool
  let max_visits ← PrimitiveParser.parse_i32
  let show_order ← PrimitiveParser.parse_i32
  let jump_parameters_conditions_count ← PrimitiveParser.parse_i32
  let parameters_conditions ←
    qcount jump_parameters_conditions_count.toNat JumpParameterConditionParser.parse
  let parameters_changes_count ← PrimitiveParser.parse_i32
  let parameter_changes ← qcount parameters_changes_count.toNat ParameterChangeParser.parse
  let formula_text ← StringParser.parse
  let formula ← liftFormula formula_text
  let s1 ← StringParser.parse
  let text ← liftFt N s1
  let s2 ← StringParser.parse
  let description ← liftFt N s2
  let media ← MediaParser.parse
  QP.pure
    { priority, do_pass_day := 0 < do_pass_day, id := ⟨u32OfI32 id⟩,
      from_id := ⟨u32OfI32 from_id⟩, to_id := ⟨u32OfI32 to_id⟩, show_always,
      max_visits := if u32OfI32 max_visits = 0 then .infinite else .limit (u32OfI32 max_visits),
      show_order := u32OfI32 show_order, parameters_conditions, parameter_changes,
      formula, text, description, media }

/-- The record-reading part of `QmmParser::parse` (everything before the
end-of-buffer check). -/
def QmmParser.body (N : Nat) : QP Quest := do
  let header ← HeaderParser.parse
  let parameters ← qcount header.parameters_count ParameterParser.parse
  let string_replacements ← StringReplacementsParser.parse
  let info ← InfoParser.parse N
  let locations ← qcount info.locations_count (LocationParser.parse N)
  let jumps ← qcount info.jumps_count (JumpParser.parse N)
  QP.pure { header, parameters, string_replacements, info, locations, jumps }

/-- `QmmParser::parse`: reads all records, then rejects the buffer with
`ExpectedEnd` unless the cursor sits exactly at the end. -/
def QmmParser.parse (N : Nat) (buf : List Nat) : QOut Quest :=
  match QmmParser.body N buf 0 with
  | .ok q p => if p ≠ buf.length then .err .ExpectedEnd else .ok q p
  | out => out

/-- A minimal well-formed QMM6 buffer: 41-byte header (probe block absent,
cursor rewound) with `parameters_count = 0`, the 7-slot string-replacement
block (all strings absent), an info block with `locations_count = 1` and
`jumps_count = 0` and absent texts, and one Starting location with no
parameter changes, no text variants and order-based selection. -/
def demoBuf : List Nat :=
  [0xD6, 0x35, 0x3A, 0x42,
   1, 0, 0x40, 1, 1,
   0, 0, 0, 0,
   0, 0, 0, 0, 0, 0, 0, 0, 0, 0, 0, 0, 0, 0, 0, 0,
   0, 0, 0, 0,
   0, 0, 0, 0,
   0, 0, 0, 0,
   0, 0, 0, 0, 0, 0, 0, 0, 0, 0, 0, 0, 0, 0, 0, 0,
   0, 0, 0, 0, 0, 0, 0, 0, 0, 0, 0, 0,
   1, 0, 0, 0,
   0, 0, 0, 0,
   0, 0, 0, 0,
   0, 0, 0, 0,
   0, 0, 0, 0,
   0, 0, 0, 0,
   0, 0, 0, 0,
   1, 0, 0, 0,
   0, 0, 0, 0,
   1,
   0, 0, 0, 0,
   0, 0, 0, 0,
   0,
   0, 0, 0, 0]

/-- The `Quest` value decoded from `demoBuf`. -/
def demoQuest : Quest :=
  { header :=
      { version := .qmm6, giver_race := ⟨1⟩, completion_condition := .afterReturning,
        quest_planet_type := .uninhabited, player_status := ⟨1⟩, player_race := ⟨1⟩,
        relation_change := 0, default_jumps_limit := .infinite, difficult := 0,
        parameters_count := 0 },
    parameters := [],
    string_replacements := { to_star := [], to_planet := [], from_planet := [],
                             from_star := [], ranger := [] },
    info := { locations_count := 1, jumps_count := 0, success_text := ⟨[]⟩,
              task_text := ⟨[]⟩ },
    locations :=
      [{ do_pass_day := false, id := ⟨1⟩, max_visits := .infinite, ty := .starting,
         parameter_changes := [], texts := [], media := [], select_type := .byOrder }],
    jumps := [] }

/-! ## Verification predicates -/

/-- A markup element's `value` is exactly the input slice at the position
where it was recognised. -/
def ValueAt (buffer : List Char) (pos : Nat) (el : TextElement) : Prop :=
  el.value = subSlice buffer pos (pos + el.value.length)

/-- A record decoder's successful run is unaffected by extra bytes appended
after the buffer. -/
def ExtOk (p : QP α) : Prop :=
  ∀ buf ext pos a pos', p buf pos = .ok a pos' → p (buf ++ ext) pos = .ok a pos'

/-- On a truncation of the buffer a successful run either fits entirely
below the cut (same value, same end position) or fails with `Incomplete`. -/
def TruncOk (p : QP α) : Prop :=
  ∀ buf pos a pos' k, p buf pos = .ok a pos' → pos ≤ k → k < buf.length →
    (p (buf.take k) pos = .ok a pos' ∧ pos' ≤ k) ∨ p (buf.take k) pos = .err .Incomplete

/-- Both robustness properties together. -/
def GoodP (p : QP α) : Prop := ExtOk p ∧ TruncOk p

/-! ## Theorems -/

theorem subSlice_length (l : List α) (a b : Nat) :
    (subSlice l a b).length = min b l.length - a := by
  simp [subSlice]; omega

theorem subSlice_nil (l : List α) (a b : Nat) (h : b ≤ a) : subSlice l a b = [] := by
  simp [subSlice, Nat.sub_eq_zero_of_le h]

theorem take_append_subSlice (l : List α) (a b : Nat) (h : a ≤ b) :
    l.take a ++ subSlice l a b = l.take b := by
  have hb : b = a + (b - a) := by omega
  rw [hb, List.take_add, subSlice]
  congr 2
  omega

theorem subSlice_one (l : List α) (i : Nat) (h : i < l.length) :
    subSlice l i (i + 1) = [l[i]] := by
  rw [subSlice, List.drop_eq_getElem_cons h, show i + 1 - i = 1 from by omega]
  rfl

theorem subSlice_two (l : List α) (i : Nat) {x y : α}
    (hx : l[i]? = some x) (hy : l[i + 1]? = some y) :
    subSlice l i (i + 2) = [x, y] := by
  have h1 : i < l.length := by
    by_contra hc
    rw [List.getElem?_eq_none (by omega)] at hx
    exact absurd hx (by simp)
  have h2 : i + 1 < l.length := by
    by_contra hc
    rw [List.getElem?_eq_none (by omega)] at hy
    exact absurd hy (by simp)
  have e1 : l[i] = x := by
    have := List.getElem?_eq_getElem h1
    rw [this] at hx; exact Option.some.inj hx
  have e2 : l[i + 1] = y := by
    have := List.getElem?_eq_getElem h2
    rw [this] at hy; exact Option.some.inj hy
  rw [subSlice, List.drop_eq_getElem_cons h1]
  have : l.drop (i + 1) = l[i + 1] :: l.drop (i + 2) := List.drop_eq_getElem_cons h2
  rw [show i + 2 - i = 2 from by omega, this, e1, e2]
  rfl

theorem valueAt_mk {buffer : List Char} {start e : Nat} {el : TextElement}
    (hv : el.value = subSlice buffer start e) (he : e ≤ buffer.length) :
    ValueAt buffer start el := by
  unfold ValueAt
  by_cases hse : start ≤ e
  · rw [hv, subSlice_length]
    congr 1
    omega
  · rw [hv, subSlice_nil buffer start e (by omega)] at *
    rw [hv]
    exact (subSlice_nil buffer start (start + ([] : List Char).length) (by simp)).symm

theorem varGo_value (buffer : List Char) (start : Nat) :
    ∀ n pos rel el,
      FormattedText.tryParseVariableGo buffer start n pos rel = some el →
      ∃ p, pos ≤ p ∧ p < buffer.length ∧ el.value = subSlice buffer start (p + 1) := by
  intro n
  induction n with
  | zero =>
    intro pos rel el h
    exact absurd h (by simp [FormattedText.tryParseVariableGo])
  | succ k ih =>
    intro pos rel el h
    rw [FormattedText.tryParseVariableGo] at h
    by_cases hp : pos < buffer.length
    · rw [dif_pos hp] at h
      dsimp only at h
      split at h
      · split at h
        · refine ⟨pos, le_refl _, hp, ?_⟩
          cases h
          rfl
        · obtain ⟨p, hp1, hp2, hp3⟩ := ih (pos + 1) (rel + 1) el h
          exact ⟨p, by omega, hp2, hp3⟩
      · exact absurd h (by simp)
    · rw [dif_neg hp] at h
      exact absurd h (by simp)

theorem formulaGo_value (buffer : List Char) (start : Nat) :
    ∀ n pos el,
      FormattedText.tryParseFormulaGo buffer start n pos = some el →
      ∃ p, pos ≤ p ∧ p < buffer.length ∧ el.value = subSlice buffer start (p + 1) := by
  intro n
  induction n with
  | zero =>
    intro pos el h
    exact absurd h (by simp [FormattedText.tryParseFormulaGo])
  | succ k ih =>
    intro pos el h
    rw [FormattedText.tryParseFormulaGo] at h
    by_cases hp : pos < buffer.length
    · rw [dif_pos hp] at h
      split at h
      · refine ⟨pos, le_refl _, hp, ?_⟩
        cases h
        rfl
      · obtain ⟨p, hp1, hp2, hp3⟩ := ih (pos + 1) el h
        exact ⟨p, by omega, hp2, hp3⟩
    · rw [dif_neg hp] at h
      exact absurd h (by simp)

theorem selGo_value (buffer : List Char) (start textStart : Nat) :
    ∀ n pos el,
      FormattedText.tryParseTextSelectionGo buffer start textStart n pos = some el →
      ∃ p, p < buffer.length ∧ el.value = subSlice buffer start (p + 1) := by
  intro n
  induction n with
  | zero =>
    intro pos el h
    exact absurd h (by simp [FormattedText.tryParseTextSelectionGo])
  | succ k ih =>
    intro pos el h
    rw [FormattedText.tryParseTextSelectionGo] at h
    by_cases hp : pos < buffer.length
    · rw [dif_pos hp] at h
      split at h
      · split at h
        · exact absurd h (by simp)
        · rename_i endTagEnd hend
          rw [FormattedText.tryParseTextSelectionEndTagEnd] at hend
          split at hend
          · rename_i hc
            cases hend
            refine ⟨pos + 7, by omega, ?_⟩
            cases h
            rfl
          · exact absurd hend (by simp)
      · obtain ⟨p, hp2, hp3⟩ := ih (pos + 1) el h
        exact ⟨p, hp2, hp3⟩
    · rw [dif_neg hp] at h
      exact absurd h (by simp)

theorem paramGo_value (buffer : List Char) (start numberStart : Nat) :
    ∀ n pos el,
      FormattedText.tryParseParameterGo buffer start numberStart n pos = some el →
      ∃ p, p < buffer.length ∧ el.value = subSlice buffer start (p + 1) := by
  intro n
  induction n with
  | zero =>
    intro pos el h
    exact absurd h (by simp [FormattedText.tryParseParameterGo])
  | succ k ih =>
    intro pos el h
    rw [FormattedText.tryParseParameterGo] at h
    by_cases hp : pos < buffer.length
    · rw [dif_pos hp] at h
      dsimp only at h
      split at h
      · split at h
        · exact absurd h (by simp)
        · split at h
          · refine ⟨pos, hp, ?_⟩
            cases h
            rfl
          · exact absurd h (by simp)
      · split at h
        · obtain ⟨p, hp2, hp3⟩ := ih (pos + 1) el h
          exact ⟨p, hp2, hp3⟩
        · exact absurd h (by simp)
    · rw [dif_neg hp] at h
      exact absurd h (by simp)

theorem tryParseVariable_valueAt {buffer : List Char} {pos : Nat} {el : TextElement}
    (h : FormattedText.tryParseVariable buffer pos = some el) : ValueAt buffer pos el := by
  obtain ⟨p, _, hp2, hp3⟩ :=
    varGo_value buffer pos (buffer.length + 1) pos 0 el
      (by rw [FormattedText.tryParseVariable] at h; exact h)
  exact valueAt_mk hp3 (by omega)

theorem tryParseCurrentParameter_valueAt {buffer : List Char} {pos : Nat} {el : TextElement}
    (h : FormattedText.tryParseCurrentParameter buffer pos = some el) :
    ValueAt buffer pos el := by
  rw [FormattedText.tryParseCurrentParameter] at h
  split at h
  · rename_i hx hy
    cases h
    exact valueAt_mk (subSlice_two buffer pos hx hy).symm
      (by
        by_contra hc
        rw [List.getElem?_eq_none (by omega)] at hy
        exact absurd hy (by simp))
  · exact absurd h (by simp)

theorem tryParseTextSelection_valueAt {buffer : List Char} {pos : Nat} {el : TextElement}
    (h : FormattedText.tryParseTextSelection buffer pos = some el) : ValueAt buffer pos el := by
  rw [FormattedText.tryParseTextSelection] at h
  split at h
  · exact absurd h (by simp)
  · rename_i beginTagEnd hbeg
    obtain ⟨p, hp2, hp3⟩ :=
      selGo_value buffer pos (beginTagEnd + 1) (buffer.length + 1) (beginTagEnd + 1) el h
    exact valueAt_mk hp3 (by omega)

theorem tryParseFormula_valueAt {buffer : List Char} {pos : Nat} {el : TextElement}
    (h : FormattedText.tryParseFormula buffer pos = some el) : ValueAt buffer pos el := by
  obtain ⟨p, _, hp2, hp3⟩ :=
    formulaGo_value buffer pos (buffer.length + 1) pos el
      (by rw [FormattedText.tryParseFormula] at h; exact h)
  exact valueAt_mk hp3 (by omega)

theorem tryParseParameter_valueAt {buffer : List Char} {pos : Nat} {el : TextElement}
    (h : FormattedText.tryParseParameter buffer pos = some el) : ValueAt buffer pos el := by
  rw [FormattedText.tryParseParameter] at h
  split at h
  · obtain ⟨p, hp2, hp3⟩ :=
      paramGo_value buffer pos (pos + 2) (buffer.length + 1) (pos + 2) el h
    exact valueAt_mk hp3 (by omega)
  · exact absurd h (by simp)

theorem orElse_some_cases {α : Type} {a : Option α} {f : Unit → Option α} {x : α}
    (h : a.orElse f = some x) : a = some x ∨ (a = none ∧ f () = some x) := by
  cases a with
  | some y => left; simpa [Option.orElse] using h
  | none => right; exact ⟨rfl, by simpa [Option.orElse] using h⟩

theorem valueAt_dispatch {buffer : List Char} {pos : Nat} {el : TextElement}
    (h : (FormattedText.tryParseVariable buffer pos).orElse
      (fun _ => (FormattedText.tryParseCurrentParameter buffer pos).orElse
        (fun _ => FormattedText.tryParseTextSelection buffer pos)) = some el) :
    ValueAt buffer pos el := by
  rcases orElse_some_cases h with h1 | ⟨_, h1⟩
  · exact tryParseVariable_valueAt h1
  · rcases orElse_some_cases h1 with h2 | ⟨_, h2⟩
    · exact tryParseCurrentParameter_valueAt h2
    · exact tryParseTextSelection_valueAt h2

theorem concatValues_append (els : List TextElement) (e : TextElement) :
    concatValues (els ++ [e]) = concatValues els ++ e.value := by
  simp [concatValues]

theorem pushText_take {buffer : List Char} {last pos : Nat} {els : List TextElement}
    (h1 : last ≤ pos) (h2 : pos < buffer.length)
    (h3 : concatValues els = buffer.take last) :
    concatValues (FormattedText.pushTextFromPrevEl buffer last pos els) = buffer.take pos := by
  rw [FormattedText.pushTextFromPrevEl]
  split
  · rw [concatValues_append, h3]
    exact take_append_subSlice buffer last pos h1
  · rename_i hcond
    by_cases hlp : last = pos
    · rw [h3, hlp]
    · have : last = buffer.length := by tauto
      omega

theorem pushText_end {buffer : List Char} {last pos : Nat} {els : List TextElement}
    (h1 : last ≤ pos) (h2 : buffer.length ≤ pos)
    (h3 : concatValues els = buffer.take last) :
    concatValues (FormattedText.pushTextFromPrevEl buffer last pos els) = buffer := by
  rw [FormattedText.pushTextFromPrevEl]
  split
  · rw [concatValues_append, h3, take_append_subSlice buffer last pos h1]
    exact List.take_of_length_le h2
  · rename_i hcond
    by_cases hlast : last = buffer.length
    · rw [h3, hlast, List.take_length]
    · have hlp : last = pos := by tauto
      rw [h3, hlp]
      exact List.take_of_length_le h2

theorem parseLoop_coverage (buffer : List Char) :
    ∀ fuel pos last els out,
      last ≤ pos →
      concatValues els = buffer.take last →
      FormattedText.parseLoop buffer fuel pos last els = some out →
      concatValues out = buffer := by
  intro fuel
  induction fuel with
  | zero =>
    intro pos last els out _ _ h
    exact absurd h (by simp [FormattedText.parseLoop])
  | succ k ih =>
    intro pos last els out h1 h2 h
    rw [FormattedText.parseLoop] at h
    by_cases hp : pos < buffer.length
    · rw [dif_pos hp] at h
      dsimp only at h
      split at h
      · rename_i hch
        split at h
        · rename_i el heq
          have hva : el.value = subSlice buffer pos (pos + el.value.length) :=
            valueAt_dispatch heq
          refine ih _ _ _ _ (by omega) ?_ h
          rw [concatValues_append, pushText_take h1 hp h2]
          conv_lhs => rw [hva]
          exact take_append_subSlice buffer pos (pos + el.value.length) (by omega)
        · exact ih _ _ _ _ (by omega) h2 h
      · split at h
        · rename_i hch2
          split at h
          · rename_i el heq
            have hva : el.value = subSlice buffer pos (pos + el.value.length) :=
              tryParseFormula_valueAt heq
            refine ih _ _ _ _ (by omega) ?_ h
            rw [concatValues_append, pushText_take h1 hp h2]
            conv_lhs => rw [hva]
            exact take_append_subSlice buffer pos (pos + el.value.length) (by omega)
          · exact ih _ _ _ _ (by omega) h2 h
        · split at h
          · rename_i hch3
            refine ih _ _ _ _ (by omega) ?_ h
            rw [concatValues_append, pushText_take h1 hp h2]
            have hslice : subSlice buffer pos (pos + 1) = cs "\n" := by
              rw [subSlice_one buffer pos hp, hch3]
              rfl
            rw [show (⟨.newLine, cs "\n"⟩ : TextElement).value = cs "\n" from rfl, ← hslice]
            exact take_append_subSlice buffer pos (pos + 1) (by omega)
          · split at h
            · rename_i hch4
              split at h
              · rename_i hnext
                refine ih _ _ _ _ (by omega) ?_ h
                rw [concatValues_append, pushText_take h1 hp h2]
                have hpx : buffer[pos]? = some '\r' := by
                  rw [List.getElem?_eq_getElem hp, hch4]
                have hslice : subSlice buffer pos (pos + 2) = cs "\r\n" := by
                  rw [subSlice_two buffer pos hpx hnext]
                  rfl
                rw [show (⟨.newLine, cs "\r\n"⟩ : TextElement).value = cs "\r\n" from rfl,
                  ← hslice]
                exact take_append_subSlice buffer pos (pos + 2) (by omega)
              · exact ih _ _ _ _ h1 h2 h
            · split at h
              · rename_i hch5
                split at h
                · rename_i el heq
                  have hva : el.value = subSlice buffer pos (pos + el.value.length) :=
                    tryParseParameter_valueAt heq
                  refine ih _ _ _ _ (by omega) ?_ h
                  rw [concatValues_append, pushText_take h1 hp h2]
                  conv_lhs => rw [hva]
                  exact take_append_subSlice buffer pos (pos + el.value.length) (by omega)
                · exact ih _ _ _ _ (by omega) h2 h
              · exact ih _ _ _ _ (by omega) h2 h
    · rw [dif_neg hp] at h
      cases h
      exact pushText_end h1 (by omega) h2

theorem parseLoop_stuck_mid : ∀ n, FormattedText.parseLoop (cs "a\rb") n 1 0 [] = none := by
  intro n
  induction n with
  | zero => rfl
  | succ k ih =>
    rw [FormattedText.parseLoop]
    simpa using ih

/-- C1: false of the code (code bug).  `FormattedText::parse` does not
terminate on `"a\rb"`: when the scan reaches the lone `'\r'` the `continue`
skips the `pos += 1` at the bottom of the loop, so the state never changes
again — for every iteration budget `n` the loop is still running, whereas
the claim (and the spec) require the scan to advance one position, treat the
`'\r'` as literal text and terminate. -/
theorem claim_C1_lone_cr_diverges :
    ∀ n, FormattedText.parseFuel n (cs "a\rb") = none := by
  intro n
  cases n with
  | zero => rfl
  | succ k =>
    rw [FormattedText.parseFuel, if_neg (by decide), FormattedText.parseLoop]
    simpa using parseLoop_stuck_mid k

theorem parseLoop_stuck_cr : ∀ n, FormattedText.parseLoop (cs "\r") n 0 0 [] = none := by
  intro n
  induction n with
  | zero => rfl
  | succ k ih =>
    rw [FormattedText.parseLoop]
    simpa using ih

/-- C4: the total-coverage property itself is sound and proved for every
run that returns — concatenating the `value` of every emitted element, in
order, reproduces the input exactly — but the claim quantifies over every
input string and the code's scanner never returns anything on the input
`"\r"` (the non-advancing lone-`'\r'` loop, the same code bug as C1), so
"for every input" fails on the code: the first conjunct shows no iteration
budget ever completes the scan of `"\r"`, the second is the coverage
property for all terminating runs. -/
theorem claim_C4_total_coverage :
    (∀ n, FormattedText.parseFuel n (cs "\r") = none) ∧
    (∀ fuel text els, FormattedText.parseFuel fuel text = some els →
      concatValues els = text) := by
  constructor
  · intro n
    rw [FormattedText.parseFuel, if_neg (by decide)]
    exact parseLoop_stuck_cr n
  · intro fuel text els h
    rw [FormattedText.parseFuel] at h
    split at h
    · rename_i he
      cases h
      simp [concatValues, he]
    · exact parseLoop_coverage text fuel 0 0 [] els (le_refl 0) (by simp [concatValues]) h

/-- C4 witness: the coverage conjunct applied to the concrete input
`"ab<Day>c"`, on which the scanner terminates with three elements. -/
theorem claim_C4_witness :
    concatValues
      [⟨.text, cs "ab"⟩, ⟨.var (cs "Day"), cs "<Day>"⟩, ⟨.text, cs "c"⟩] = cs "ab<Day>c" :=
  claim_C4_total_coverage.2 10 (cs "ab<Day>c")
    [⟨.text, cs "ab"⟩, ⟨.var (cs "Day"), cs "<Day>"⟩, ⟨.text, cs "c"⟩] (by decide)

/-- C5: false of the code (code bug).  On `"\n\n"` the scanner emits a
`NewLine` for the first `'\n'` but then a `Text` element for the second:
after consuming any element the `'<'`/`'{'`/`'\n'`/`'['` arms fall through
to the loop's `pos += 1`, so the character immediately after the element is
never dispatched and is flushed as literal text; the claim (and the spec)
require two `NewLine` elements and no `Text` element. -/
theorem claim_C5_nn_evaluation :
    FormattedText.parseFuel 5 (cs "\n\n") =
      some [⟨.newLine, cs "\n"⟩, ⟨.text, cs "\n"⟩] := by decide

/-- C6: confirmed.  `Formula::parse` on `"[p0] to 1 * 2 to [p1]"` returns
exactly the three tokens `ToRange(Parameter 0, Integer 1)`, `Multiply`,
`ToRange(Integer 2, Parameter 1)`: each of the integers `1` and `2` anchors
its own range token. -/
theorem claim_C6_to_range_precedence :
    Formula.parse (cs "[p0] to 1 * 2 to [p1]") =
      .ok [⟨.toRange (.parameter 0) (.integer 1), cs "[p0] to 1"⟩,
           ⟨.multiply, cs "*"⟩,
           ⟨.toRange (.integer 2) (.parameter 1), cs "2 to [p1]"⟩] := by decide

/-- C7 counterexample: at the `'-'` of `"2-0"` the numeric-literal matcher
succeeds with literal `"-0"`, and the emitted token is `Integer 0` — an
integer value that is not negative, contradicting the claim's "Integer or
Double with negative value". -/
theorem claim_C7_counterexample :
    Formula.parse (cs "2-0") = .ok [⟨.integer 2, cs "2"⟩, ⟨.integer 0, cs "-0"⟩] ∧
      ¬ ((0 : Int) < 0) := ⟨by decide, by decide⟩

/-- C7 (amended): at a `'-'` dispatch position, if the scanner's own
numeric-literal matcher (`Formula::try_parse_number`) succeeds there, the
scanner emits exactly that one signed-number token (its value is the
negated numeral, so negative whenever the numeral is nonzero — `"-0"`
yields `Integer 0`) and the scan continues past it; it emits the standalone
`Substract` token exactly when the matcher finds no literal; in particular
`"2-3"` tokenizes to `[Integer 2, Integer (-3)]` and `"2-("` to
`[Integer 2, Substract, OpenParenthesis]`. -/
theorem claim_C7_signed_minus (buffer : List Char) (fuel pos : Nat)
    (tokens : List FormulaToken) (h : pos < buffer.length) (hch : buffer[pos] = '-') :
    ((∀ t, Formula.tryParseNumber buffer pos = .ok t →
        Formula.parseLoopF buffer (fuel + 1) pos tokens =
          Formula.parseLoopF buffer fuel (pos + t.value.length) (tokens ++ [t])) ∧
     (Formula.tryParseNumber buffer pos = .noMatch →
        Formula.parseLoopF buffer (fuel + 1) pos tokens =
          Formula.parseLoopF buffer fuel (pos + 1) (tokens ++ [⟨.substract, cs "-"⟩]))) ∧
    Formula.parse (cs "2-3") = .ok [⟨.integer 2, cs "2"⟩, ⟨.integer (-3), cs "-3"⟩] ∧
    Formula.parse (cs "2-(") =
      .ok [⟨.integer 2, cs "2"⟩, ⟨.substract, cs "-"⟩, ⟨.openParenthesis, cs "("⟩] := by
  refine ⟨⟨?_, ?_⟩, by decide, by decide⟩
  · intro t ht
    rw [Formula.parseLoopF, dif_pos h]
    simp [hch, ht]
  · intro ht
    rw [Formula.parseLoopF, dif_pos h]
    simp [hch, ht]

/-- C7 witness: the step property applied at position 1 of `"2-3"`, where
the matcher returns the `Integer (-3)` token. -/
theorem claim_C7_witness :
    Formula.parseLoopF (cs "2-3") 4 1 [⟨.integer 2, cs "2"⟩] =
      Formula.parseLoopF (cs "2-3") 3 3 [⟨.integer 2, cs "2"⟩, ⟨.integer (-3), cs "-3"⟩] :=
  (claim_C7_signed_minus (cs "2-3") 3 1 [⟨.integer 2, cs "2"⟩] (by decide)
    (by decide)).1.1 ⟨.integer (-3), cs "-3"⟩ (by decide)

theorem qp_bind_apply (p : QP α) (f : α → QP β) (buf : List Nat) (pos : Nat) :
    (p >>= f) buf pos =
      match p buf pos with
      | .ok a pos' => f a buf pos'
      | .err e => .err e
      | .stuck => .stuck := rfl

/-- C8: confirmed.  The relation-change field decoder maps
`[05, FF, FF, FF]` to `-5` and `[05, 00, 00, 00]` to `5`, and rejects every
4-byte field whose trailing three bytes are neither all `FF` nor all `00`
with the `InvalidRelationChange` header error. -/
theorem claim_C8_relation_change :
    HeaderParser.parse_relation_change [0x05, 0xFF, 0xFF, 0xFF] 0 = .ok (-5) 4 ∧
    HeaderParser.parse_relation_change [0x05, 0x00, 0x00, 0x00] 0 = .ok 5 4 ∧
    ∀ b0 b1 b2 b3 : Nat,
      ¬ (b1 = 0xFF ∧ b2 = 0xFF ∧ b3 = 0xFF) →
      ¬ (b1 = 0 ∧ b2 = 0 ∧ b3 = 0) →
      HeaderParser.parse_relation_change [b0, b1, b2, b3] 0 =
        .err (.InvalidHeader .InvalidRelationChange) := by
  refine ⟨by decide, by decide, ?_⟩
  intro b0 b1 b2 b3 hff h0
  rw [HeaderParser.parse_relation_change, if_pos (by simp)]
  have hs : subSlice [b0, b1, b2, b3] 0 (0 + 4) = [b0, b1, b2, b3] := rfl
  rw [hs]
  simp only [if_neg hff, if_neg h0]

/-- C8 witness: the error case applied at the concrete field
`[05, 01, 02, 03]`. -/
theorem claim_C8_witness :
    HeaderParser.parse_relation_change [0x05, 0x01, 0x02, 0x03] 0 =
      .err (.InvalidHeader .InvalidRelationChange) :=
  claim_C8_relation_change.2.2 0x05 0x01 0x02 0x03 (by decide) (by decide)

/-- C9: confirmed.  For every buffer with a valid 4-byte magic and at least
12 further bytes, the version probe consumes the 12-byte block exactly when
it is the `01 00×11` sentinel (cursor at 16); for any other 12-byte pattern
the cursor is rewound to just after the magic (cursor at 4). -/
theorem claim_C9_version_probe (buf : List Nat) (v : Version)
    (hlen : 16 ≤ buf.length) (hmagic : versionFromMagic (subSlice buf 0 4) = some v) :
    (subSlice buf 4 16 = [1, 0, 0, 0, 0, 0, 0, 0, 0, 0, 0, 0] →
      HeaderParser.parse_version buf 0 = .ok v 16) ∧
    (subSlice buf 4 16 ≠ [1, 0, 0, 0, 0, 0, 0, 0, 0, 0, 0, 0] →
      HeaderParser.parse_version buf 0 = .ok v 4) := by
  have h4 : subSlice buf 0 (0 + 4) = subSlice buf 0 4 := rfl
  have h16 : subSlice buf (0 + 4) (0 + 16) = subSlice buf 4 16 := rfl
  constructor <;> intro hsent
  · rw [HeaderParser.parse_version, if_pos (by omega), h4, hmagic]
    dsimp only
    rw [if_pos (by omega), h16, if_pos hsent]
  · rw [HeaderParser.parse_version, if_pos (by omega), h4, hmagic]
    dsimp only
    rw [if_pos (by omega), h16, if_neg hsent]

/-- C9 witness: the probe applied to two concrete 16-byte buffers — a QMM6
magic followed by the sentinel (cursor 16), and the same magic followed by a
non-sentinel block (cursor 4). -/
theorem claim_C9_witness :
    HeaderParser.parse_version
      [0xD6, 0x35, 0x3A, 0x42, 1, 0, 0, 0, 0, 0, 0, 0, 0, 0, 0, 0] 0 = .ok .qmm6 16 ∧
    HeaderParser.parse_version
      [0xD6, 0x35, 0x3A, 0x42, 9, 0, 0, 0, 0, 0, 0, 0, 0, 0, 0, 0] 0 = .ok .qmm6 4 :=
  ⟨(claim_C9_version_probe _ .qmm6 (by decide) (by decide)).1 (by decide),
   (claim_C9_version_probe _ .qmm6 (by decide) (by decide)).2 (by decide)⟩

/-- C10: confirmed.  A buffer whose first 4 bytes are a valid magic but with
fewer than 12 bytes after them makes header decoding fail with `Incomplete`:
the speculative 12-byte probe read does not tolerate end of input. -/
theorem claim_C10_short_probe (buf : List Nat) (v : Version)
    (hmagic : versionFromMagic (subSlice buf 0 4) = some v) (hlen : buf.length < 16) :
    HeaderParser.parse buf 0 = .err .Incomplete := by
  have hver : HeaderParser.parse_version buf 0 = .err .Incomplete := by
    have h4 : 4 ≤ buf.length := by
      by_contra hc
      have : (subSlice buf 0 4).length < 4 := by
        rw [subSlice_length]
        omega
      rw [versionFromMagic] at hmagic
      split at hmagic
      · rename_i he
        rw [he] at this
        exact absurd this (by decide)
      · split at hmagic
        · rename_i he
          rw [he] at this
          exact absurd this (by decide)
        · exact absurd hmagic (by simp)
    have h4' : subSlice buf 0 (0 + 4) = subSlice buf 0 4 := rfl
    rw [HeaderParser.parse_version, if_pos (by omega), h4', hmagic]
    dsimp only
    rw [if_neg (by omega)]
  rw [HeaderParser.parse, qp_bind_apply, hver]

/-- C10 witness: a 6-byte buffer starting with the QMM6 magic. -/
theorem claim_C10_witness :
    HeaderParser.parse [0xD6, 0x35, 0x3A, 0x42, 0, 0] 0 = .err .Incomplete :=
  claim_C10_short_probe [0xD6, 0x35, 0x3A, 0x42, 0, 0] .qmm6 (by decide) (by decide)

theorem subSlice_append {l l2 : List α} {a b : Nat} (h : b ≤ l.length) :
    subSlice (l ++ l2) a b = subSlice l a b := by
  by_cases hab : a ≤ l.length
  · rw [subSlice, subSlice, List.drop_append_of_le_length hab,
      List.take_append_of_le_length (by simp [List.length_drop]; omega)]
  · rw [subSlice_nil _ a b (by omega), subSlice_nil _ a b (by omega)]

theorem subSlice_take {l : List α} {a b k : Nat} (h : b ≤ k) :
    subSlice (l.take k) a b = subSlice l a b := by
  rw [subSlice, subSlice, List.drop_take, List.take_take]
  congr 1
  omega

theorem good_pure (a : α) : GoodP (QP.pure a) := by
  constructor
  · intro buf ext pos b pos' h
    exact h
  · intro buf pos b pos' k h hpk hkl
    left
    refine ⟨h, ?_⟩
    cases h
    omega

theorem good_pureM (a : α) : GoodP (pure a : QP α) := good_pure a

theorem good_throw (e : ParsingError) : GoodP (QP.throw e : QP α) := by
  constructor
  · intro buf ext pos b pos' h
    exact absurd h (by simp [QP.throw])
  · intro buf pos b pos' k h hpk hkl
    exact absurd h (by simp [QP.throw])

theorem good_bind {p : QP α} {f : α → QP β} (hp : GoodP p) (hf : ∀ a, GoodP (f a)) :
    GoodP (p >>= f) := by
  constructor
  · intro buf ext pos a pos' h
    rw [qp_bind_apply] at h ⊢
    cases hq : p buf pos with
    | ok b q' =>
      rw [hq] at h
      rw [hp.1 buf ext pos b q' hq]
      exact (hf b).1 buf ext q' a pos' h
    | err e => rw [hq] at h; simp at h
    | stuck => rw [hq] at h; simp at h
  · intro buf pos a pos' k h hpk hkl
    rw [qp_bind_apply] at h
    cases hq : p buf pos with
    | ok b q' =>
      rw [hq] at h
      rcases hp.2 buf pos b q' k hq hpk hkl with ⟨hq2, hq3⟩ | hq2
      · rcases (hf b).2 buf q' a pos' k h hq3 hkl with ⟨hf2, hf3⟩ | hf2
        · left
          exact ⟨by rw [qp_bind_apply, hq2]; exact hf2, hf3⟩
        · right
          rw [qp_bind_apply, hq2]
          exact hf2
      · right
        rw [qp_bind_apply, hq2]
    | err e => rw [hq] at h; simp at h
    | stuck => rw [hq] at h; simp at h

theorem good_ite {c : Prop} [Decidable c] {p q : QP α} (hp : GoodP p) (hq : GoodP q) :
    GoodP (if c then p else q) := by
  by_cases hc : c
  · rw [if_pos hc]; exact hp
  · rw [if_neg hc]; exact hq

theorem good_readBytesN (n : Nat) : GoodP (readBytesN n) := by
  constructor
  · intro buf ext pos a pos' h
    rw [readBytesN] at h ⊢
    split at h
    · rename_i hn0
      rw [if_pos hn0]
      exact h
    · rename_i hn
      rw [if_neg hn]
      split at h
      · rename_i hle
        cases h
        rw [if_pos (by simp; omega), subSlice_append hle]
      · simp at h
  · intro buf pos a pos' k h hpk hkl
    rw [readBytesN] at h
    split at h
    · rename_i hn0
      left
      refine ⟨by rw [readBytesN, if_pos hn0]; exact h, ?_⟩
      cases h
      omega
    · rename_i hn
      split at h
      · rename_i hle
        cases h
        by_cases hk : pos + n ≤ k
        · left
          constructor
          · rw [readBytesN, if_neg hn, if_pos (by rw [List.length_take]; omega),
              subSlice_take hk]
          · omega
        · right
          rw [readBytesN, if_neg hn, if_neg (by rw [List.length_take]; omega)]
      · simp at h

theorem good_local (p : QP α) (hb : ∀ buf buf' pos, p buf pos = p buf' pos)
    (hk : ∀ buf pos a pos', p buf pos = .ok a pos' → pos' = pos) : GoodP p := by
  constructor
  · intro buf ext pos a pos' h
    rw [hb (buf ++ ext) buf pos]
    exact h
  · intro buf pos a pos' k h hpk hkl
    left
    refine ⟨by rw [hb (buf.take k) buf pos]; exact h, ?_⟩
    rw [hk buf pos a pos' h]
    exact hpk

theorem good_liftFt (N : Nat) (s : List Char) : GoodP (liftFt N s) := by
  apply good_local
  · intro buf buf' pos
    rfl
  · intro buf pos a pos' h
    rw [liftFt] at h
    split at h
    · cases h; rfl
    · simp at h

theorem good_liftFormula (s : List Char) : GoodP (liftFormula s) := by
  apply good_local
  · intro buf buf' pos
    rfl
  · intro buf pos a pos' h
    rw [liftFormula] at h
    split at h <;> first | (cases h; rfl) | simp at h

theorem good_qcount (n : Nat) (p : QP α) (hp : GoodP p) : GoodP (qcount n p) := by
  induction n with
  | zero => exact good_pureM []
  | succ k ih =>
    rw [qcount]
    apply good_bind hp
    intro a
    apply good_bind ih
    intro rest
    exact good_pureM (a :: rest)

theorem good_parse_i32 : GoodP PrimitiveParser.parse_i32 := by
  unfold PrimitiveParser.parse_i32
  exact good_bind (good_readBytesN 4) (fun bs => good_pureM _)

theorem good_parse_f64 : GoodP PrimitiveParser.parse_f64 := by
  unfold PrimitiveParser.parse_f64
  exact good_bind (good_readBytesN 8) (fun bs => good_pureM _)

theorem good_parse_byte : GoodP PrimitiveParser.parse_byte := by
  unfold PrimitiveParser.parse_byte
  exact good_bind (good_readBytesN 1) (fun bs => good_pureM _)

theorem good_parse_bool : GoodP PrimitiveParser.parse_bool := by
  unfold PrimitiveParser.parse_bool
  apply good_bind good_parse_byte
  intro b
  match b with
  | 0 => exact good_pure false
  | 1 => exact good_pure true
  | n + 2 => exact good_throw _

theorem good_readU32 : GoodP readU32 := by
  unfold readU32
  exact good_bind (good_readBytesN 4) (fun bs => good_pureM _)

theorem good_stringParse : GoodP StringParser.parse := by
  unfold StringParser.parse
  apply good_bind good_readU32
  intro has
  apply good_ite (good_pureM [])
  apply good_bind good_readU32
  intro len
  apply good_ite (good_pureM [])
  apply good_bind (good_readBytesN (len * 2))
  intro bs
  cases utf16Decode (utf16Units bs) with
  | none => exact good_throw _
  | some s => exact good_pure s

theorem good_parse_version : GoodP HeaderParser.parse_version := by
  constructor
  · intro buf ext pos a pos' h
    rw [HeaderParser.parse_version] at h ⊢
    split at h
    · rename_i h4
      rw [if_pos (by simp; omega), subSlice_append (show pos + 4 ≤ buf.length from h4)]
      cases hm : versionFromMagic (subSlice buf pos (pos + 4)) with
      | none => rw [hm] at h; simp at h
      | some v =>
        rw [hm] at h
        dsimp only at h ⊢
        split at h
        · rename_i h16
          rw [if_pos (by simp; omega),
            subSlice_append (show pos + 16 ≤ buf.length from h16)]
          exact h
        · simp at h
    · simp at h
  · intro buf pos a pos' k h hpk hkl
    rw [HeaderParser.parse_version] at h
    split at h
    · rename_i h4
      cases hm : versionFromMagic (subSlice buf pos (pos + 4)) with
      | none => rw [hm] at h; simp at h
      | some v =>
        rw [hm] at h
        dsimp only at h
        split at h
        · rename_i h16
          by_cases hk16 : pos + 16 ≤ k
          · left
            constructor
            · rw [HeaderParser.parse_version, if_pos (by rw [List.length_take]; omega),
                subSlice_take (show pos + 4 ≤ k from by omega), hm]
              dsimp only
              rw [if_pos (by rw [List.length_take]; omega), subSlice_take hk16]
              exact h
            · split at h <;> (cases h; omega)
          · by_cases hk4 : pos + 4 ≤ k
            · right
              rw [HeaderParser.parse_version, if_pos (by rw [List.length_take]; omega),
                subSlice_take (show pos + 4 ≤ k from hk4), hm]
              dsimp only
              rw [if_neg (by rw [List.length_take]; omega)]
            · right
              rw [HeaderParser.parse_version, if_neg (by rw [List.length_take]; omega)]
        · simp at h
    · simp at h

theorem good_parse_relation_change : GoodP HeaderParser.parse_relation_change := by
  constructor
  · intro buf ext pos a pos' h
    rw [HeaderParser.parse_relation_change] at h ⊢
    split at h
    · rename_i h4
      rw [if_pos (by simp; omega), subSlice_append (show pos + 4 ≤ buf.length from h4)]
      exact h
    · simp at h
  · intro buf pos a pos' k h hpk hkl
    rw [HeaderParser.parse_relation_change] at h
    split at h
    · rename_i h4
      by_cases hk : pos + 4 ≤ k
      · left
        constructor
        · rw [HeaderParser.parse_relation_change, if_pos (by rw [List.length_take]; omega),
            subSlice_take hk]
          exact h
        · split at h
          · split at h
            · cases h; omega
            · split at h
              · cases h; omega
              · simp at h
          · simp at h
      · right
        rw [HeaderParser.parse_relation_change, if_neg (by rw [List.length_take]; omega)]
    · simp at h

theorem parse_bool_eval (buf : List Nat) (pos : Nat) :
    PrimitiveParser.parse_bool buf pos =
      if pos + 1 ≤ buf.length then
        match leNat (subSlice buf pos (pos + 1)) with
        | 0 => .ok false (pos + 1)
        | 1 => .ok true (pos + 1)
        | _ + 2 => .err .InvalidBool
      else .err .Incomplete := by
  by_cases hle : pos + 1 ≤ buf.length
  · rw [if_pos hle, PrimitiveParser.parse_bool, qp_bind_apply, PrimitiveParser.parse_byte,
      qp_bind_apply, readBytesN, if_neg (by decide : ¬ (1 = 0)), if_pos hle]
    dsimp only
    cases hv : leNat (subSlice buf pos (pos + 1)) with
    | zero => rfl
    | succ m =>
      cases m with
      | zero => rfl
      | succ mm => rfl
  · rw [if_neg hle, PrimitiveParser.parse_bool, qp_bind_apply, PrimitiveParser.parse_byte,
      qp_bind_apply, readBytesN, if_neg (by decide : ¬ (1 = 0)), if_neg hle]

theorem good_skip3_then_bool : GoodP ParameterParser.skip3_then_bool := by
  constructor
  · intro buf ext pos a pos' h
    rw [ParameterParser.skip3_then_bool, parse_bool_eval] at h ⊢
    split at h
    · rename_i h4
      rw [if_pos (by simp; omega), subSlice_append (show pos + 3 + 1 ≤ buf.length from h4)]
      exact h
    · simp at h
  · intro buf pos a pos' k h hpk hkl
    rw [ParameterParser.skip3_then_bool, parse_bool_eval] at h
    split at h
    · rename_i h4
      by_cases hk : pos + 3 + 1 ≤ k
      · left
        constructor
        · rw [ParameterParser.skip3_then_bool, parse_bool_eval,
            if_pos (by rw [List.length_take]; omega), subSlice_take hk]
          exact h
        · split at h
          · cases h; omega
          · cases h; omega
          · simp at h
      · right
        rw [ParameterParser.skip3_then_bool, parse_bool_eval,
          if_neg (by rw [List.length_take]; omega)]
    · simp at h

theorem good_giver_race : GoodP HeaderParser.parse_quest_giver_race := by
  unfold HeaderParser.parse_quest_giver_race
  apply good_bind good_parse_byte
  intro b
  cases raceTryFrom b with
  | none => exact good_throw _
  | some r => exact good_pure r

theorem good_completion_condition : GoodP HeaderParser.parse_completion_condition := by
  unfold HeaderParser.parse_completion_condition
  apply good_bind good_parse_byte
  intro b
  cases completionConditionTryFrom b with
  | none => exact good_throw _
  | some c => exact good_pure c

theorem good_planet_type : GoodP HeaderParser.parse_quest_planet_type := by
  unfold HeaderParser.parse_quest_planet_type
  apply good_bind good_parse_byte
  intro b
  apply good_ite (good_pure _)
  cases raceTryFrom b with
  | none => exact good_throw _
  | some r => exact good_pure _

theorem good_player_status : GoodP HeaderParser.parse_player_status := by
  unfold HeaderParser.parse_player_status
  apply good_bind good_parse_byte
  intro b
  cases playerStatusTryFrom b with
  | none => exact good_throw _
  | some r => exact good_pure r

theorem good_player_race : GoodP HeaderParser.parse_player_race := by
  unfold HeaderParser.parse_player_race
  apply good_bind good_parse_byte
  intro b
  cases raceTryFrom b with
  | none => exact good_throw _
  | some r => exact good_pure r

theorem good_jumps_limit : GoodP HeaderParser.parse_jumps_limit := by
  unfold HeaderParser.parse_jumps_limit
  apply good_bind good_parse_i32
  intro v
  exact good_ite (good_pure _) (good_pure _)

theorem good_headerParse : GoodP HeaderParser.parse := by
  unfold HeaderParser.parse
  apply good_bind good_parse_version
  intro version
  apply good_bind good_giver_race
  intro giver_race
  apply good_bind good_completion_condition
  intro completion_condition
  apply good_bind good_planet_type
  intro quest_planet_type
  apply good_bind good_player_status
  intro player_status
  apply good_bind good_player_race
  intro player_race
  apply good_bind good_parse_relation_change
  intro relation_change
  apply good_bind good_parse_i32
  intro s1
  apply good_bind good_parse_i32
  intro s2
  apply good_bind good_parse_i32
  intro s3
  apply good_bind good_parse_i32
  intro s4
  apply good_bind good_jumps_limit
  intro default_jumps_limit
  apply good_bind good_parse_i32
  intro difficult
  apply good_bind good_parse_i32
  intro parameters_count
  exact good_pure _

theorem good_parse_type : GoodP ParameterParser.parse_type := by
  unfold ParameterParser.parse_type
  apply good_bind good_parse_byte
  intro b
  cases parameterTypeTryFrom b with
  | none => exact good_throw _
  | some t => exact good_pure t

theorem good_parse_critical_value : GoodP ParameterParser.parse_critical_value := by
  unfold ParameterParser.parse_critical_value
  apply good_bind good_parse_byte
  intro b
  match b with
  | 0 => exact good_pure _
  | 1 => exact good_pure _
  | n + 2 => exact good_throw _

theorem good_range_line : GoodP ParameterParser.range_line := by
  unfold ParameterParser.range_line
  apply good_bind good_parse_i32
  intro f
  apply good_bind good_parse_i32
  intro t
  apply good_bind good_stringParse
  intro v
  exact good_pure _

theorem good_parameterParse : GoodP ParameterParser.parse := by
  unfold ParameterParser.parse
  apply good_bind good_parse_i32
  intro min_value
  apply good_bind good_parse_i32
  intro max_value
  apply good_bind good_parse_type
  intro ty
  apply good_bind good_skip3_then_bool
  intro show_when_zero
  apply good_bind good_parse_critical_value
  intro critical_value
  apply good_bind good_parse_bool
  intro is_active
  apply good_bind good_parse_i32
  intro formatted_lines_count
  apply good_bind good_parse_bool
  intro is_money
  apply good_bind good_stringParse
  intro name
  apply good_bind (good_qcount _ _ good_range_line)
  intro formatted_range_lines
  apply good_bind good_stringParse
  intro critical_text
  apply good_bind good_stringParse
  intro image
  apply good_bind good_stringParse
  intro sound
  apply good_bind good_stringParse
  intro track
  apply good_bind good_stringParse
  intro starting_value
  exact good_pure _

theorem good_stringReplacementsParse : GoodP StringReplacementsParser.parse := by
  unfold StringReplacementsParser.parse
  apply good_bind good_stringParse
  intro to_star
  apply good_bind good_stringParse
  intro to_planet
  apply good_bind good_stringParse
  intro d1
  apply good_bind good_stringParse
  intro d2
  apply good_bind good_stringParse
  intro from_planet
  apply good_bind good_stringParse
  intro from_star
  apply good_bind good_stringParse
  intro ranger
  exact good_pure _

theorem good_infoParse (N : Nat) : GoodP (InfoParser.parse N) := by
  unfold InfoParser.parse
  apply good_bind good_parse_i32
  intro locations_count
  apply good_bind good_parse_i32
  intro jumps_count
  apply good_bind good_stringParse
  intro s1
  apply good_bind (good_liftFt N s1)
  intro success_text
  apply good_bind good_stringParse
  intro s2
  apply good_bind (good_liftFt N s2)
  intro task_text
  exact good_pure _

theorem good_mediaParse : GoodP MediaParser.parse := by
  unfold MediaParser.parse
  apply good_bind good_stringParse
  intro image
  apply good_bind good_stringParse
  intro sound
  apply good_bind good_stringParse
  intro track
  exact good_pure _

theorem good_parse_show_type : GoodP ParameterChangeParser.parse_show_type := by
  unfold ParameterChangeParser.parse_show_type
  apply good_bind good_parse_byte
  intro b
  cases parameterShowTypeTryFrom b with
  | none => exact good_throw _
  | some st => exact good_pure st

theorem good_parse_change_type : GoodP ParameterChangeParser.parse_change_type := by
  unfold ParameterChangeParser.parse_change_type
  apply good_bind good_parse_byte
  intro b
  cases parameterChangeTypeTryFrom b with
  | none => exact good_throw _
  | some ct => exact good_pure ct

theorem good_parameterChangeParse : GoodP ParameterChangeParser.parse := by
  unfold ParameterChangeParser.parse
  apply good_bind good_parse_i32
  intro parameter_id
  apply good_bind good_parse_i32
  intro skip
  apply good_bind good_parse_show_type
  intro show_type
  apply good_bind good_parse_change_type
  intro change_type
  apply good_bind good_stringParse
  intro formula_text
  apply good_bind (good_liftFormula formula_text)
  intro formula
  apply good_bind good_stringParse
  intro critical_text
  apply good_bind good_mediaParse
  intro media
  exact good_pure _

theorem good_jpcParse : GoodP JumpParameterConditionParser.parse := by
  unfold JumpParameterConditionParser.parse
  apply good_bind good_parse_i32
  intro parameter_id
  apply good_bind good_parse_i32
  intro range_start
  apply good_bind good_parse_i32
  intro range_end
  apply good_bind good_parse_i32
  intro must_equal_values_count
  apply good_bind good_parse_bool
  intro must_equal
  apply good_bind (good_qcount _ _ good_parse_i32)
  intro must_equal_values
  apply good_bind good_parse_i32
  intro must_mod_values_count
  apply good_bind good_parse_bool
  intro must_mod
  apply good_bind (good_qcount _ _ good_parse_i32)
  intro must_mod_values
  exact good_pure _

theorem good_locationTextItem (N : Nat) : GoodP (locationTextItem N) := by
  unfold locationTextItem
  apply good_bind good_stringParse
  intro s
  apply good_bind (good_liftFt N s)
  intro t
  apply good_bind good_mediaParse
  intro m
  exact good_pure _

theorem good_parse_location_type : GoodP LocationParser.parse_location_type := by
  unfold LocationParser.parse_location_type
  apply good_bind good_parse_byte
  intro b
  cases locationTypeTryFrom b with
  | none => exact good_throw _
  | some t => exact good_pure t

theorem good_select_type_of (flag : Bool) (sf : List Char) :
    GoodP (LocationParser.select_type_of flag sf) := by
  cases flag with
  | false => exact good_pure _
  | true =>
    apply good_bind (good_liftFormula sf)
    intro f
    exact good_pure _

theorem good_locationParse (N : Nat) : GoodP (LocationParser.parse N) := by
  unfold LocationParser.parse
  apply good_bind good_parse_i32
  intro do_pass_day
  apply good_bind good_parse_i32
  intro c1
  apply good_bind good_parse_i32
  intro c2
  apply good_bind good_parse_i32
  intro id
  apply good_bind good_parse_i32
  intro max_visits
  apply good_bind good_parse_location_type
  intro ty
  apply good_bind good_parse_i32
  intro parameters_changes_count
  apply good_bind (good_qcount _ _ good_parameterChangeParse)
  intro parameter_changes
  apply good_bind good_parse_i32
  intro location_texts_count
  apply good_bind (good_qcount _ _ (good_locationTextItem N))
  intro pairs
  apply good_bind good_parse_bool
  intro select_type_flag
  apply good_bind good_stringParse
  intro select_formula
  apply good_bind (good_select_type_of select_type_flag select_formula)
  intro select_type
  exact good_pure _

theorem good_jumpParse (N : Nat) : GoodP (JumpParser.parse N) := by
  unfold JumpParser.parse
  apply good_bind good_parse_f64
  intro priority
  apply good_bind good_parse_i32
  intro do_pass_day
  apply good_bind good_parse_i32
  intro id
  apply good_bind good_parse_i32
  intro from_id
  apply good_bind good_parse_i32
  intro to_id
  apply good_bind good_parse_bool
  intro show_always
  apply good_bind good_parse_i32
  intro max_visits
  apply good_bind good_parse_i32
  intro show_order
  apply good_bind good_parse_i32
  intro jump_parameters_conditions_count
  apply good_bind (good_qcount _ _ good_jpcParse)
  intro parameters_conditions
  apply good_bind good_parse_i32
  intro parameters_changes_count
  apply good_bind (good_qcount _ _ good_parameterChangeParse)
  intro parameter_changes
  apply good_bind good_stringParse
  intro formula_text
  apply good_bind (good_liftFormula formula_text)
  intro formula
  apply good_bind good_stringParse
  intro s1
  apply good_bind (good_liftFt N s1)
  intro text
  apply good_bind good_stringParse
  intro s2
  apply good_bind (good_liftFt N s2)
  intro description
  apply good_bind good_mediaParse
  intro media
  exact good_pure _

theorem good_qmmBody (N : Nat) : GoodP (QmmParser.body N) := by
  unfold QmmParser.body
  apply good_bind good_headerParse
  intro header
  apply good_bind (good_qcount _ _ good_parameterParse)
  intro parameters
  apply good_bind good_stringReplacementsParse
  intro string_replacements
  apply good_bind (good_infoParse N)
  intro info
  apply good_bind (good_qcount _ _ (good_locationParse N))
  intro locations
  apply good_bind (good_qcount _ _ (good_jumpParse N))
  intro jumps
  exact good_pure _

theorem body_nil (N : Nat) : QmmParser.body N [] 0 = .err .Incomplete := by
  have hv : HeaderParser.parse_version [] 0 = .err .Incomplete := by
    rw [HeaderParser.parse_version, if_neg (by decide)]
  have hh : HeaderParser.parse [] 0 = .err .Incomplete := by
    rw [HeaderParser.parse, qp_bind_apply, hv]
  rw [QmmParser.body, qp_bind_apply, hh]

/-- C2: confirmed.  Whenever `QmmParser::parse` succeeds, the cursor ends
exactly at the buffer length; appending any extra byte to that buffer makes
it return `ExpectedEnd`; truncating the final byte makes it return
`Incomplete`. -/
theorem claim_C2_exact_consumption (N : Nat) (buf : List Nat) (q : Quest) (p : Nat)
    (h : QmmParser.parse N buf = .ok q p) :
    p = buf.length ∧
    (∀ b, QmmParser.parse N (buf ++ [b]) = .err .ExpectedEnd) ∧
    QmmParser.parse N buf.dropLast = .err .Incomplete := by
  rw [QmmParser.parse] at h
  cases hb : QmmParser.body N buf 0 with
  | err e => rw [hb] at h; simp at h
  | stuck => rw [hb] at h; simp at h
  | ok q0 p0 =>
    rw [hb] at h
    dsimp only at h
    split at h
    · simp at h
    · rename_i hpe
      have hp0 : p0 = buf.length := by omega
      injection h with h1 h2
      subst h1
      subst h2
      refine ⟨hp0, ?_, ?_⟩
      · intro b
        have hext := (good_qmmBody N).1 buf [b] 0 q0 p0 hb
        rw [QmmParser.parse, hext]
        dsimp only
        rw [if_pos (by simp; omega)]
      · have hne : buf ≠ [] := by
          intro hbe
          rw [hbe, body_nil N] at hb
          simp at hb
        have hlen1 : 1 ≤ buf.length := by
          cases buf with
          | nil => exact absurd rfl hne
          | cons x xs => simp
        rcases (good_qmmBody N).2 buf 0 q0 p0 (buf.length - 1) hb (by omega) (by omega) with
          ⟨hok, hle⟩ | herr
        · omega
        · have hdl : buf.dropLast = buf.take (buf.length - 1) := List.dropLast_eq_take buf
          rw [QmmParser.parse, hdl, herr]

set_option maxRecDepth 100000 in
/-- C2 witness: the theorem applied to the 119-byte minimal valid document
`demoBuf`. -/
theorem claim_C2_witness :
    119 = demoBuf.length ∧
    QmmParser.parse 1 (demoBuf ++ [7]) = .err .ExpectedEnd ∧
    QmmParser.parse 1 demoBuf.dropLast = .err .Incomplete :=
  let h2 := claim_C2_exact_consumption 1 demoBuf demoQuest 119 (by decide)
  ⟨h2.1, h2.2.1 7, h2.2.2⟩

theorem qcount_length {α : Type} {p : QP α} :
    ∀ n buf pos lst pos', qcount n p buf pos = .ok lst pos' → lst.length = n := by
  intro n
  induction n with
  | zero =>
    intro buf pos lst pos' h
    rw [qcount] at h
    cases h
    rfl
  | succ k ih =>
    intro buf pos lst pos' h
    rw [qcount, qp_bind_apply] at h
    cases hp : p buf pos with
    | ok a p1 =>
      rw [hp] at h
      dsimp only at h
      rw [qp_bind_apply] at h
      cases hq : qcount k p buf p1 with
      | ok rest p2 =>
        rw [hq] at h
        dsimp only at h
        cases h
        simpa using ih buf p1 rest pos' hq
      | err e => rw [hq] at h; simp at h
      | stuck => rw [hq] at h; simp at h
    | err e => rw [hp] at h; simp at h
    | stuck => rw [hp] at h; simp at h

/-- C3: confirmed.  Whenever `QmmParser::parse` succeeds, the decoded
parameter list has exactly `header.parameters_count` entries, the location
list exactly `info.locations_count` entries and the jump list exactly
`info.jumps_count` entries. -/
theorem claim_C3_counts (N : Nat) (buf : List Nat) (q : Quest) (p : Nat)
    (h : QmmParser.parse N buf = .ok q p) :
    q.parameters.length = q.header.parameters_count ∧
    q.locations.length = q.info.locations_count ∧
    q.jumps.length = q.info.jumps_count := by
  rw [QmmParser.parse] at h
  cases hb : QmmParser.body N buf 0 with
  | err e => rw [hb] at h; simp at h
  | stuck => rw [hb] at h; simp at h
  | ok q0 p0 =>
    rw [hb] at h
    dsimp only at h
    split at h
    · simp at h
    · injection h with h1 h2
      subst h1
      rw [QmmParser.body, qp_bind_apply] at hb
      cases hh : HeaderParser.parse buf 0 with
      | err e => rw [hh] at hb; simp at hb
      | stuck => rw [hh] at hb; simp at hb
      | ok header p1 =>
        rw [hh] at hb
        dsimp only at hb
        rw [qp_bind_apply] at hb
        cases hps : qcount header.parameters_count ParameterParser.parse buf p1 with
        | err e => rw [hps] at hb; simp at hb
        | stuck => rw [hps] at hb; simp at hb
        | ok params p2 =>
          rw [hps] at hb
          dsimp only at hb
          rw [qp_bind_apply] at hb
          cases hsr : StringReplacementsParser.parse buf p2 with
          | err e => rw [hsr] at hb; simp at hb
          | stuck => rw [hsr] at hb; simp at hb
          | ok srs p3 =>
            rw [hsr] at hb
            dsimp only at hb
            rw [qp_bind_apply] at hb
            cases hinfo : InfoParser.parse N buf p3 with
            | err e => rw [hinfo] at hb; simp at hb
            | stuck => rw [hinfo] at hb; simp at hb
            | ok info p4 =>
              rw [hinfo] at hb
              dsimp only at hb
              rw [qp_bind_apply] at hb
              cases hlocs : qcount info.locations_count (LocationParser.parse N) buf p4 with
              | err e => rw [hlocs] at hb; simp at hb
              | stuck => rw [hlocs] at hb; simp at hb
              | ok locs p5 =>
                rw [hlocs] at hb
                dsimp only at hb
                rw [qp_bind_apply] at hb
                cases hjs : qcount info.jumps_count (JumpParser.parse N) buf p5 with
                | err e => rw [hjs] at hb; simp at hb
                | stuck => rw [hjs] at hb; simp at hb
                | ok js p6 =>
                  rw [hjs] at hb
                  dsimp only at hb
                  injection hb with hq hp6
                  subst hq
                  exact ⟨qcount_length _ _ _ _ _ hps, qcount_length _ _ _ _ _ hlocs,
                    qcount_length _ _ _ _ _ hjs⟩

set_option maxRecDepth 100000 in
/-- C3 witness: the theorem applied to the 119-byte minimal valid document
`demoBuf` (0 parameters, 1 location, 0 jumps). -/
theorem claim_C3_witness :
    demoQuest.parameters.length = demoQuest.header.parameters_count ∧
    demoQuest.locations.length = demoQuest.info.locations_count ∧
    demoQuest.jumps.length = demoQuest.info.jumps_count :=
  claim_C3_counts 1 demoBuf demoQuest 119 (by decide)
